/-
Verification of the orbital-mechanics and time-keeping core of a 3D
solar-system visualizer.

The development shallowly embeds the TypeScript source into Lean:
JavaScript numbers are modelled as real numbers, the JS `%` operator on
numbers is modelled by `jsMod` (remainder with truncation toward zero),
JS `Date` values are modelled by their epoch-milliseconds value, and the
bounded Newton-Raphson loop of the Kepler solver is modelled by a
fuel-indexed recursion that mirrors the loop body exactly (compute the
step, update, return early when the step is below tolerance).
-/
import Mathlib

open Real

namespace SolarSys

/-! ## Basic model types -/

/-- A 3D vector, modelling `THREE.Vector3`. -/
@[ext]
structure Vec3 where
  x : ℝ
  y : ℝ
  z : ℝ

/-- Truncation toward zero, as used by the JavaScript `%` operator. -/
noncomputable def jsTrunc (x : ℝ) : ℤ :=
  if 0 ≤ x then ⌊x⌋ else ⌈x⌉

/-- The JavaScript remainder operator `a % b` on numbers:
`a - b * trunc (a / b)` (sign follows the dividend). -/
noncomputable def jsMod (a b : ℝ) : ℝ :=
  a - b * (jsTrunc (a / b) : ℝ)

/-- Keplerian orbital elements, from `OrbitalElements` in the orbital
mechanics module.  `inclination` and `longitudeOfAscendingNode` are
optional fields (destructured with default `0` at the use sites). -/
structure OrbitalElements where
  semiMajorAxis : ℝ
  eccentricity : ℝ
  periapsisArgument : ℝ
  meanAnomalyAtEpoch : ℝ
  inclination : Option ℝ := none
  longitudeOfAscendingNode : Option ℝ := none

/-! ## Kepler solver (`solveKeplerEquation`) -/

/-- One Newton-Raphson correction `dE = (E - e·sin E - M)/(1 - e·cos E)`,
the quantity computed inside the loop of `solveKeplerEquation`. -/
noncomputable def newtonStep (ecc M E : ℝ) : ℝ :=
  (E - ecc * Real.sin E - M) / (1 - ecc * Real.cos E)

/-- The updated eccentric-anomaly estimate `E - dE`. -/
noncomputable def newtonNext (ecc M E : ℝ) : ℝ :=
  E - newtonStep ecc M E

/-- The Newton-Raphson loop of `solveKeplerEquation`: with fuel `n`,
compute `dE`, update `E`, and return early when `|dE| < tolerance`;
with fuel exhausted, return the current best estimate. -/
noncomputable def keplerAux (ecc M tol : ℝ) : ℕ → ℝ → ℝ
  | 0, E => E
  | n + 1, E =>
    if |newtonStep ecc M E| < tol then newtonNext ecc M E
    else keplerAux ecc M tol n (newtonNext ecc M E)

/-- Number of loop iterations actually executed by `keplerAux`
(each iteration computes one `dE`). -/
noncomputable def keplerAuxSteps (ecc M tol : ℝ) : ℕ → ℝ → ℕ
  | 0, _ => 0
  | n + 1, E =>
    if |newtonStep ecc M E| < tol then 1
    else 1 + keplerAuxSteps ecc M tol n (newtonNext ecc M E)

/-- `solveKeplerEquation(meanAnomaly, eccentricity, tolerance = 1e-6,
maxIterations = 50)`: normalize the mean anomaly into `[0, 2π)` using the
JS `%` operator, start from `E₀ = M + e·sin M`, and run Newton-Raphson. -/
noncomputable def solveKeplerEquation (meanAnomaly eccentricity : ℝ)
    (tolerance : ℝ := 1e-6) (maxIterations : ℕ := 50) : ℝ :=
  let M0 := jsMod meanAnomaly (2 * π)
  let M := if M0 < 0 then M0 + 2 * π else M0
  keplerAux eccentricity M tolerance maxIterations (M + eccentricity * Real.sin M)

/-- `eccentricToTrueAnomaly(E, e) = 2·atan(√((1+e)/(1−e))·tan(E/2))`. -/
noncomputable def eccentricToTrueAnomaly (eccentricAnomaly eccentricity : ℝ) : ℝ :=
  2 * Real.arctan (Real.sqrt ((1 + eccentricity) / (1 - eccentricity)) *
    Real.tan (eccentricAnomaly / 2))

/-! ## Position and path generation -/

/-- `applyOrbitalInclination(x, z, i, Ω)`: rotate the in-plane position
into the reference plane, `R_z(Ω) · R_x(i)` as written in the source. -/
noncomputable def applyOrbitalInclination (x z inclination longitudeOfAscendingNode : ℝ) :
    Vec3 :=
  let cosOmega := Real.cos longitudeOfAscendingNode
  let sinOmega := Real.sin longitudeOfAscendingNode
  let cosI := Real.cos inclination
  let sinI := Real.sin inclination
  { x := x * cosOmega - z * sinOmega * cosI
    y := z * sinI
    z := x * sinOmega + z * cosOmega * cosI }

/-- `calculateOrbitalPosition(elements, time, speedMultiplier = 1)`. -/
noncomputable def calculateOrbitalPosition (elements : OrbitalElements)
    (time : ℝ) (speedMultiplier : ℝ := 1) : Vec3 :=
  let inclination := elements.inclination.getD 0
  let longitudeOfAscendingNode := elements.longitudeOfAscendingNode.getD 0
  let meanAnomaly := elements.meanAnomalyAtEpoch + time * speedMultiplier
  let eccentricAnomaly := solveKeplerEquation meanAnomaly elements.eccentricity
  let trueAnomaly := eccentricToTrueAnomaly eccentricAnomaly elements.eccentricity
  let distance := (elements.semiMajorAxis * (1 - elements.eccentricity * elements.eccentricity)) /
    (1 + elements.eccentricity * Real.cos trueAnomaly)
  let angleInOrbit := trueAnomaly + elements.periapsisArgument
  applyOrbitalInclination (distance * Real.cos angleInOrbit)
    (distance * Real.sin angleInOrbit) inclination longitudeOfAscendingNode

/-- The point sampled by `generateEllipsePoints` at loop index `i`
(out of `segments`). -/
noncomputable def ellipsePoint (elements : OrbitalElements) (segments i : ℕ) : Vec3 :=
  let inclination := elements.inclination.getD 0
  let longitudeOfAscendingNode := elements.longitudeOfAscendingNode.getD 0
  let trueAnomaly := ((i : ℝ) / (segments : ℝ)) * π * 2
  let distance := (elements.semiMajorAxis * (1 - elements.eccentricity * elements.eccentricity)) /
    (1 + elements.eccentricity * Real.cos trueAnomaly)
  let angleInOrbit := trueAnomaly + elements.periapsisArgument
  applyOrbitalInclination (distance * Real.cos angleInOrbit)
    (distance * Real.sin angleInOrbit) inclination longitudeOfAscendingNode

/-- `generateEllipsePoints(elements, segments = 128)`: the points pushed by
the loop `for i in 0..segments` (inclusive on both ends). -/
noncomputable def generateEllipsePoints (elements : OrbitalElements)
    (segments : ℕ := 128) : List Vec3 :=
  (List.range (segments + 1)).map (ellipsePoint elements segments)

/-- The point sampled by the planar `generateEllipsePoints` variant
(the orbital-mechanics module that ignores inclination) at index `i`. -/
noncomputable def ellipsePointPlanar (elements : OrbitalElements) (segments i : ℕ) : Vec3 :=
  let trueAnomaly := ((i : ℝ) / (segments : ℝ)) * π * 2
  let distance := (elements.semiMajorAxis * (1 - elements.eccentricity * elements.eccentricity)) /
    (1 + elements.eccentricity * Real.cos trueAnomaly)
  let angleInOrbit := trueAnomaly + elements.periapsisArgument
  { x := distance * Real.cos angleInOrbit, y := 0, z := distance * Real.sin angleInOrbit }

/-- The planar `generateEllipsePoints(elements, segments = 128)` variant
(second orbital-mechanics module, no inclination handling). -/
noncomputable def generateEllipsePointsPlanar (elements : OrbitalElements)
    (segments : ℕ := 128) : List Vec3 :=
  (List.range (segments + 1)).map (ellipsePointPlanar elements segments)

/-! ## Epoch & time service (`ephemeris.ts` and the scene controller) -/

/-- `J2000_EPOCH = 2451545.0` (Julian Date of the J2000.0 epoch). -/
def J2000_EPOCH : ℝ := 2451545.0

/-- `MS_PER_DAY = 86400000`. -/
def MS_PER_DAY : ℝ := 86400000

/-- `dateToJulianDate(date) = date.getTime()/MS_PER_DAY + 2440587.5`.
A JS `Date` is modelled by its epoch-milliseconds value. -/
noncomputable def dateToJulianDate (dateMs : ℝ) : ℝ :=
  dateMs / MS_PER_DAY + 2440587.5

/-- `julianDateToDate(jd) = new Date((jd - 2440587.5) * MS_PER_DAY)`,
returned as epoch-milliseconds. -/
noncomputable def julianDateToDate (jd : ℝ) : ℝ :=
  (jd - 2440587.5) * MS_PER_DAY

/-- `daysSinceJ2000(date) = dateToJulianDate(date) - J2000_EPOCH`. -/
noncomputable def daysSinceJ2000 (dateMs : ℝ) : ℝ :=
  dateToJulianDate dateMs - J2000_EPOCH

/-- The simulation-time service state.  In the source the composable's
only stored (mutable) state is the ref `simulationDate`; `daysSinceEpoch`,
`julianDate` and `formattedDate` are computed views of it. -/
structure SimulationTimeState where
  simulationDateMs : ℝ

/-- `daysSinceEpoch` of the time service (a computed view). -/
noncomputable def SimulationTimeState.daysSinceEpoch (s : SimulationTimeState) : ℝ :=
  daysSinceJ2000 s.simulationDateMs

/-- `advanceTime(deltaSeconds, speedMultiplier)`: each real second is one
simulated day at 1x speed; the stored date advances by
`deltaSeconds * speedMultiplier * MS_PER_DAY` milliseconds. -/
noncomputable def advanceTime (s : SimulationTimeState)
    (deltaSeconds speedMultiplier : ℝ) : SimulationTimeState :=
  { simulationDateMs :=
      s.simulationDateMs + deltaSeconds * speedMultiplier * MS_PER_DAY }

/-- `jumpToEpoch()`: set the simulation date to
`julianDateToDate(J2000_EPOCH)`. -/
noncomputable def jumpToEpoch : SimulationTimeState :=
  { simulationDateMs := julianDateToDate J2000_EPOCH }

/-! ## Ephemeris table -/

/-- One entry of `PLANET_EPHEMERIS`: mean anomaly at the J2000.0 epoch and
mean motion, both in degrees. -/
structure EphemerisEntry where
  meanAnomalyAtEpoch : ℝ
  meanMotion : ℝ

/-- The static table `PLANET_EPHEMERIS` (eight planets and five named
dwarf planets). -/
def PLANET_EPHEMERIS : String → Option EphemerisEntry
  | "Mercury" => some ⟨174.796, 4.09233445⟩
  | "Venus" => some ⟨50.115, 1.60213034⟩
  | "Earth" => some ⟨357.529, 0.98560028⟩
  | "Mars" => some ⟨19.373, 0.52402068⟩
  | "Jupiter" => some ⟨20.020, 0.08308529⟩
  | "Saturn" => some ⟨317.020, 0.03344414⟩
  | "Uranus" => some ⟨142.238, 0.01172834⟩
  | "Neptune" => some ⟨256.228, 0.00598103⟩
  | "Ceres" => some ⟨95.989, 0.21408157⟩
  | "Pluto" => some ⟨14.53, 0.00397570⟩
  | "Haumea" => some ⟨218.205, 0.00348432⟩
  | "Makemake" => some ⟨165.514, 0.00318097⟩
  | "Eris" => some ⟨204.16, 0.00176328⟩
  | _ => none

/-- `calculateMeanAnomaly(bodyName, daysSinceEpoch)`: for a known body,
`((M0 + n·Δt) % 360 + 360) % 360` with the JS `%`; for an unknown body
the source logs a warning via `console.warn` and returns `0`. -/
noncomputable def calculateMeanAnomaly (bodyName : String) (daysSinceEpoch : ℝ) : ℝ :=
  match PLANET_EPHEMERIS bodyName with
  | none => 0
  | some eph =>
    jsMod (jsMod (eph.meanAnomalyAtEpoch + eph.meanMotion * daysSinceEpoch) 360 + 360) 360

/-- Whether `calculateMeanAnomaly` hits its `console.warn` branch (it does
exactly when the body is absent from the table; the call never throws). -/
def calculateMeanAnomalyWarns (bodyName : String) : Bool :=
  (PLANET_EPHEMERIS bodyName).isNone

/-! ## Per-frame updates (Moon.vue, Planet.vue, the animation loop) -/

/-- The state a moon's `onBeforeRender` callback mutates: the orbit-time
accumulator, the mesh position, and the spin angle `rotation.y`. -/
structure MoonState where
  orbitTime : ℝ
  position : Vec3
  rotationY : ℝ

/-- The tilt rotation applied to a moon's local orbital offset: rotation
about the X axis by the parent planet's axial tilt (the code computing
`tiltedY`/`tiltedZ`). -/
noncomputable def tiltRotate (v : Vec3) (planetAxialTilt : ℝ) : Vec3 :=
  { x := v.x
    y := v.y * Real.cos planetAxialTilt - v.z * Real.sin planetAxialTilt
    z := v.y * Real.sin planetAxialTilt + v.z * Real.cos planetAxialTilt }

/-- Vector addition (componentwise, as the source adds coordinates). -/
noncomputable def Vec3.add (a b : Vec3) : Vec3 :=
  { x := a.x + b.x, y := a.y + b.y, z := a.z + b.z }

/-- The body of `onBeforeRender` in `Moon.vue`: when not paused, advance
the orbit-time accumulator, recompute the local orbital position, tilt it
into the planet's equatorial plane, offset by the planet's position, and
advance the spin; when paused, leave all of this state untouched. -/
noncomputable def moonOnBeforeRender (isPaused : Bool) (delta : ℝ)
    (speed rotationSpeed simulationSpeed planetAxialTilt : ℝ)
    (planetPosition : Vec3) (elements : OrbitalElements)
    (s : MoonState) : MoonState :=
  if isPaused then s
  else
    let newOrbitTime := s.orbitTime + speed * delta * simulationSpeed
    let localPosition := calculateOrbitalPosition elements newOrbitTime 1
    { orbitTime := newOrbitTime
      position := Vec3.add planetPosition (tiltRotate localPosition planetAxialTilt)
      rotationY := s.rotationY + rotationSpeed * delta * simulationSpeed }

/-- The state a planet's `onBeforeRender` callback mutates. `rotationX`
is assigned the constant axial tilt on every frame (paused or not). -/
structure PlanetState where
  position : Vec3
  rotationY : ℝ
  rotationX : ℝ

/-- The body of `onBeforeRender` in `Planet.vue`: the axial tilt is
re-applied unconditionally; position and spin advance only when not
paused (position comes from the simulation date via the current mean
anomaly baked into `elements`, so `time = 0`). -/
noncomputable def planetOnBeforeRender (isPaused : Bool) (delta : ℝ)
    (rotationSpeed simulationSpeed axialTiltRadians : ℝ)
    (elements : OrbitalElements) (s : PlanetState) : PlanetState :=
  let s1 : PlanetState := { s with rotationX := axialTiltRadians }
  if isPaused then s1
  else
    { position := calculateOrbitalPosition elements 0 1
      rotationY := s1.rotationY + rotationSpeed * delta * simulationSpeed
      rotationX := axialTiltRadians }

/-- The time-advancing part of the `animate` loop: `advanceTime` is called
only when not paused. -/
noncomputable def animateTimeUpdate (isPaused : Bool) (delta simulationSpeed : ℝ)
    (s : SimulationTimeState) : SimulationTimeState :=
  if isPaused then s else advanceTime s delta simulationSpeed

/-- Euclidean length of a `Vec3` (distance from the origin). -/
noncomputable def Vec3.norm (v : Vec3) : ℝ :=
  Real.sqrt (v.x ^ 2 + v.y ^ 2 + v.z ^ 2)

/-- The sequence of eccentric-anomaly estimates produced by the Newton
loop of `solveKeplerEquation` for mean anomaly `M`: the initial guess
`M + e·sin M` followed by repeated Newton updates. -/
noncomputable def keplerSeq (ecc M : ℝ) (k : ℕ) : ℝ :=
  (newtonNext ecc M)^[k] (M + ecc * Real.sin M)

/-- Rational majorant table for the scaled Newton error
`u_k = e·(E_k - E*) / (1 - e·cos E*)` of the Kepler solver:
`u₀ ≤ 15` and `u_{k+1} ≤ u_k²/(1+u_k)`, over-approximated. -/
noncomputable def kepVList : List ℝ :=
  [15, 14.07, 13.14, 12.22, 11.3, 10.39, 9.478, 8.574, 7.679, 6.795, 5.924,
   5.069, 4.234, 3.426, 2.652, 1.926, 1.268, 0.709, 0.2942, 0.06688,
   0.004193, 0.00001751, 0.0000000003066]

/-- Rational majorant table for the raw Newton error `E_k - E*`:
starts above `π` and contracts by the factor `v_k/(1+v_k)` each step. -/
noncomputable def kepDList : List ℝ :=
  [3.15, 2.954, 2.758, 2.563, 2.37, 2.178, 1.987, 1.798, 1.611, 1.426, 1.244,
   1.065, 0.8896, 0.7197, 0.5571, 0.4046, 0.2664, 0.149, 0.06182, 0.01406,
   0.0008814, 0.000003681, 0.00000000006446]

/-- `k`-th entry of the `u`-majorant table (constant past the end). -/
noncomputable def kepV (k : ℕ) : ℝ := kepVList.getD k 0.0000000003066

/-- `k`-th entry of the error-majorant table (constant past the end). -/
noncomputable def kepD (k : ℕ) : ℝ := kepDList.getD k 0.00000000006446

/-- `ellipsePoint` with its local bindings flattened. -/
theorem ellipsePoint_def (el : OrbitalElements) (n i : ℕ) :
    ellipsePoint el n i =
      applyOrbitalInclination
        ((el.semiMajorAxis * (1 - el.eccentricity * el.eccentricity) /
            (1 + el.eccentricity * Real.cos ((i : ℝ) / (n : ℝ) * π * 2))) *
          Real.cos ((i : ℝ) / (n : ℝ) * π * 2 + el.periapsisArgument))
        ((el.semiMajorAxis * (1 - el.eccentricity * el.eccentricity) /
            (1 + el.eccentricity * Real.cos ((i : ℝ) / (n : ℝ) * π * 2))) *
          Real.sin ((i : ℝ) / (n : ℝ) * π * 2 + el.periapsisArgument))
        (el.inclination.getD 0) (el.longitudeOfAscendingNode.getD 0) := rfl

/-- `applyOrbitalInclination` with its local bindings flattened. -/
theorem applyOrbitalInclination_def (x z inc lan : ℝ) :
    applyOrbitalInclination x z inc lan =
      { x := x * Real.cos lan - z * Real.sin lan * Real.cos inc
        y := z * Real.sin inc
        z := x * Real.sin lan + z * Real.cos lan * Real.cos inc } := rfl

/-- `calculateOrbitalPosition` with its local bindings flattened. -/
theorem calculateOrbitalPosition_def (el : OrbitalElements) (time sm : ℝ) :
    calculateOrbitalPosition el time sm =
      applyOrbitalInclination
        ((el.semiMajorAxis * (1 - el.eccentricity * el.eccentricity) /
            (1 + el.eccentricity * Real.cos
              (eccentricToTrueAnomaly
                (solveKeplerEquation (el.meanAnomalyAtEpoch + time * sm) el.eccentricity)
                el.eccentricity))) *
          Real.cos (eccentricToTrueAnomaly
              (solveKeplerEquation (el.meanAnomalyAtEpoch + time * sm) el.eccentricity)
              el.eccentricity + el.periapsisArgument))
        ((el.semiMajorAxis * (1 - el.eccentricity * el.eccentricity) /
            (1 + el.eccentricity * Real.cos
              (eccentricToTrueAnomaly
                (solveKeplerEquation (el.meanAnomalyAtEpoch + time * sm) el.eccentricity)
                el.eccentricity))) *
          Real.sin (eccentricToTrueAnomaly
              (solveKeplerEquation (el.meanAnomalyAtEpoch + time * sm) el.eccentricity)
              el.eccentricity + el.periapsisArgument))
        (el.inclination.getD 0) (el.longitudeOfAscendingNode.getD 0) := rfl

end SolarSys

/-! ## Claim theorems -/

open SolarSys

/-- **C4.** `advanceTime(deltaRealSeconds, speedMultiplier)` advances the
stored simulation date by exactly `deltaRealSeconds · speedMultiplier`
simulated days; in particular `advanceTime(1.0, 1)` increases
`daysSinceEpoch` by exactly `1.0`.  The time service's only stored state
is the simulation date (all other exposed values are computed views), and
`advanceTime` only rewrites that date. -/
theorem advanceTime_advances_by_product :
    (∀ (s : SimulationTimeState) (delta mult : ℝ),
      (advanceTime s delta mult).daysSinceEpoch = s.daysSinceEpoch + delta * mult) ∧
    (∀ s : SimulationTimeState,
      (advanceTime s 1 1).daysSinceEpoch = s.daysSinceEpoch + 1) := by
  constructor
  · intro s delta mult
    simp only [advanceTime, SimulationTimeState.daysSinceEpoch, daysSinceJ2000,
      dateToJulianDate, MS_PER_DAY, J2000_EPOCH]
    ring
  · intro s
    simp only [advanceTime, SimulationTimeState.daysSinceEpoch, daysSinceJ2000,
      dateToJulianDate, MS_PER_DAY, J2000_EPOCH]
    ring

/-- **C5.** After `jumpToEpoch()` (which stores
`julianDateToDate(2451545.0)`), `daysSinceEpoch()` is exactly `0` (hence
within `1e-9`), i.e. the `dateToJulianDate`/`julianDateToDate` pair
round-trips exactly at the J2000.0 epoch. -/
theorem jumpToEpoch_daysSinceEpoch_eq_zero :
    jumpToEpoch.daysSinceEpoch = 0 ∧
    dateToJulianDate (julianDateToDate J2000_EPOCH) = J2000_EPOCH ∧
    |jumpToEpoch.daysSinceEpoch| < 1e-9 := by
  have h : dateToJulianDate (julianDateToDate J2000_EPOCH) = J2000_EPOCH := by
    simp only [dateToJulianDate, julianDateToDate, MS_PER_DAY, J2000_EPOCH]
    norm_num
  refine ⟨?_, h, ?_⟩
  · simp only [jumpToEpoch, SimulationTimeState.daysSinceEpoch, daysSinceJ2000]
    rw [h]; ring
  · simp only [jumpToEpoch, SimulationTimeState.daysSinceEpoch, daysSinceJ2000]
    rw [h]; norm_num

/-- **C8.** While the shared paused flag is `true`, the per-frame updates
leave every body's position and spin angle unchanged (the moon update is
the identity on its state, the planet update keeps position and spin
angle), and the animation loop does not invoke `advanceTime` (the time
state is unchanged); in particular two paused per-frame updates with
different `delta` values yield identical positions. -/
theorem paused_frame_update_is_identity :
    (∀ (delta speed rotSpeed simSpeed tilt : ℝ) (pp : Vec3)
      (el : OrbitalElements) (s : MoonState),
      moonOnBeforeRender true delta speed rotSpeed simSpeed tilt pp el s = s) ∧
    (∀ (delta rotSpeed simSpeed tilt : ℝ) (el : OrbitalElements) (s : PlanetState),
      (planetOnBeforeRender true delta rotSpeed simSpeed tilt el s).position = s.position ∧
      (planetOnBeforeRender true delta rotSpeed simSpeed tilt el s).rotationY = s.rotationY) ∧
    (∀ (delta simSpeed : ℝ) (s : SimulationTimeState),
      animateTimeUpdate true delta simSpeed s = s) ∧
    (∀ (delta₁ delta₂ speed rotSpeed simSpeed tilt : ℝ) (pp : Vec3)
      (el : OrbitalElements) (s : MoonState),
      (moonOnBeforeRender true delta₁ speed rotSpeed simSpeed tilt pp el s).position =
        (moonOnBeforeRender true delta₂ speed rotSpeed simSpeed tilt pp el s).position) := by
  refine ⟨?_, ?_, ?_, ?_⟩
  · intro _ _ _ _ _ _ _ _; simp [moonOnBeforeRender]
  · intro _ _ _ _ _ _; simp [planetOnBeforeRender]
  · intro _ _ _; simp [animateTimeUpdate]
  · intro _ _ _ _ _ _ _ _ _; simp [moonOnBeforeRender]

/-- **C10.** `generateEllipsePoints` does not read `meanAnomalyAtEpoch`:
two element records agreeing on the five other fields but differing in
`meanAnomalyAtEpoch` produce identical point sequences, for both the
inclination-aware variant and the planar variant. -/
theorem generateEllipsePoints_ignores_meanAnomalyAtEpoch :
    ∀ (el₁ el₂ : OrbitalElements) (n : ℕ),
      el₁.semiMajorAxis = el₂.semiMajorAxis →
      el₁.eccentricity = el₂.eccentricity →
      el₁.periapsisArgument = el₂.periapsisArgument →
      el₁.inclination = el₂.inclination →
      el₁.longitudeOfAscendingNode = el₂.longitudeOfAscendingNode →
      el₁.meanAnomalyAtEpoch ≠ el₂.meanAnomalyAtEpoch →
      generateEllipsePoints el₁ n = generateEllipsePoints el₂ n ∧
      generateEllipsePointsPlanar el₁ n = generateEllipsePointsPlanar el₂ n := by
  intro el₁ el₂ n h₁ h₂ h₃ h₄ h₅ _
  constructor
  · unfold generateEllipsePoints
    refine congrArg (fun f => (List.range (n + 1)).map f) (funext fun i => ?_)
    unfold ellipsePoint
    rw [h₁, h₂, h₃, h₄, h₅]
  · unfold generateEllipsePointsPlanar
    refine congrArg (fun f => (List.range (n + 1)).map f) (funext fun i => ?_)
    unfold ellipsePointPlanar
    rw [h₁, h₂, h₃]

/-- Evaluating the Kepler solver at mean anomaly `0`, eccentricity `0`:
the initial guess is `0`, the first Newton correction is `0`, and the
loop returns `0` on its first iteration. -/
theorem solveKeplerEquation_zero_zero : solveKeplerEquation 0 0 = 0 := by
  unfold solveKeplerEquation
  have hmod : jsMod 0 (2 * π) = 0 := by
    simp [jsMod, jsTrunc]
  rw [hmod]
  norm_num
  have hstep : newtonStep 0 0 0 = 0 := by
    simp [newtonStep]
  have h50 : (50 : ℕ) = 49 + 1 := rfl
  rw [h50, keplerAux, hstep]
  simp [newtonNext, hstep]

/-- Evaluating `eccentricToTrueAnomaly` at `E = 0`, `e = 0` gives `0`. -/
theorem eccentricToTrueAnomaly_zero_zero : eccentricToTrueAnomaly 0 0 = 0 := by
  unfold eccentricToTrueAnomaly
  norm_num

/-- A circular (`e = 0`) body with periapsis argument, mean anomaly,
inclination and node all zero sits at `(a, 0, 0)` at time `0`. -/
theorem calculateOrbitalPosition_circular_axis (a : ℝ) :
    calculateOrbitalPosition ⟨a, 0, 0, 0, none, none⟩ 0 1 = ⟨a, 0, 0⟩ := by
  rw [calculateOrbitalPosition_def]
  show applyOrbitalInclination _ _ ((none : Option ℝ).getD 0) ((none : Option ℝ).getD 0) = _
  have hM : (0 : ℝ) + 0 * 1 = 0 := by norm_num
  rw [applyOrbitalInclination_def]
  simp only [hM, solveKeplerEquation_zero_zero, eccentricToTrueAnomaly_zero_zero,
    Option.getD_none, Real.cos_zero, Real.sin_zero]
  ext <;> simp

/-- The JS normalization `((x % 360) + 360) % 360` equals
`x - 360·⌊x/360⌋`, which lies in `[0, 360)`. -/
theorem jsMod_normalize360 (x : ℝ) :
    jsMod (jsMod x 360 + 360) 360 = x - 360 * (⌊x / 360⌋ : ℝ) ∧
    0 ≤ x - 360 * (⌊x / 360⌋ : ℝ) ∧ x - 360 * (⌊x / 360⌋ : ℝ) < 360 := by
  have h360 : (0 : ℝ) < 360 := by norm_num
  have hfloor_le : (⌊x / 360⌋ : ℝ) ≤ x / 360 := Int.floor_le _
  have hlt_floor : x / 360 < (⌊x / 360⌋ : ℝ) + 1 := Int.lt_floor_add_one _
  have hge : 0 ≤ x - 360 * (⌊x / 360⌋ : ℝ) := by
    have := mul_le_mul_of_nonneg_left hfloor_le h360.le
    rw [mul_div_cancel₀ _ h360.ne'] at this
    linarith
  have hlt : x - 360 * (⌊x / 360⌋ : ℝ) < 360 := by
    have := mul_lt_mul_of_pos_left hlt_floor h360
    rw [mul_div_cancel₀ _ h360.ne'] at this
    linarith
  refine ⟨?_, hge, hlt⟩
  by_cases hx : 0 ≤ x
  · have hy : 0 ≤ x / 360 := div_nonneg hx h360.le
    have h1 : jsMod x 360 = x - 360 * (⌊x / 360⌋ : ℝ) := by
      unfold jsMod jsTrunc
      rw [if_pos hy]
    rw [h1]
    set r := x - 360 * (⌊x / 360⌋ : ℝ) with hr
    have hr360 : (r + 360) / 360 = r / 360 + 1 := by
      field_simp
    have hrfloor : ⌊r / 360⌋ = 0 := by
      rw [Int.floor_eq_zero_iff]
      constructor
      · exact div_nonneg hge h360.le
      · rw [div_lt_one h360]; exact hlt
    unfold jsMod jsTrunc
    rw [if_pos (by positivity : (0:ℝ) ≤ (r + 360) / 360)]
    rw [hr360, Int.floor_add_one, hrfloor]
    push_cast
    ring
  · push_neg at hx
    have hy : x / 360 < 0 := div_neg_of_neg_of_pos hx h360
    have h1 : jsMod x 360 = x - 360 * (⌈x / 360⌉ : ℝ) := by
      unfold jsMod jsTrunc
      rw [if_neg (not_le.mpr hy)]
    rw [h1]
    set r1 := x - 360 * (⌈x / 360⌉ : ℝ) with hr1
    have hle0 : r1 ≤ 0 := by
      have h2 : x / 360 ≤ (⌈x / 360⌉ : ℝ) := Int.le_ceil _
      have := mul_le_mul_of_nonneg_left h2 h360.le
      rw [mul_div_cancel₀ _ h360.ne'] at this
      simp only [hr1]
      linarith
    have hgt : -360 < r1 := by
      have h2 : (⌈x / 360⌉ : ℝ) < x / 360 + 1 := Int.ceil_lt_add_one _
      have := mul_lt_mul_of_pos_left h2 h360
      rw [mul_add, mul_div_cancel₀ _ h360.ne'] at this
      simp only [hr1]
      linarith
    rcases eq_or_lt_of_le hle0 with hr0 | hr0
    · -- x is an exact multiple of 360
      have hxeq : x = 360 * (⌈x / 360⌉ : ℝ) := by
        have := hr0.symm
        simp only [hr1] at this
        linarith
      have hyint : x / 360 = (⌈x / 360⌉ : ℝ) := by
        rw [hxeq]; field_simp
      have hfc : ⌊x / 360⌋ = ⌈x / 360⌉ := by
        conv_lhs => rw [hyint]
        exact Int.floor_intCast _
      have hrhs : x - 360 * (⌊x / 360⌋ : ℝ) = 0 := by
        rw [hfc]; linarith [hxeq]
      rw [hrhs, hr0]
      have h1e : ((0 : ℝ) + 360) / 360 = 1 := by norm_num
      unfold jsMod jsTrunc
      rw [if_pos (by norm_num : (0:ℝ) ≤ (0 + 360) / 360), h1e]
      norm_num
    · -- x is strictly between multiples
      have hfc : ⌈x / 360⌉ = ⌊x / 360⌋ + 1 := by
        have hlt2 : x / 360 < (⌈x / 360⌉ : ℝ) := by
          by_contra hcon
          push_neg at hcon
          have h2 : x / 360 ≤ (⌈x / 360⌉ : ℝ) := Int.le_ceil _
          have heq : x / 360 = (⌈x / 360⌉ : ℝ) := le_antisymm h2 hcon
          have : r1 = 0 := by
            simp only [hr1]
            have : x = 360 * (⌈x / 360⌉ : ℝ) := by
              rw [← heq]; field_simp
            linarith
          linarith
        have hfl : (⌊x / 360⌋ : ℝ) < (⌈x / 360⌉ : ℝ) := lt_of_le_of_lt hfloor_le hlt2
        have hfl2 : ⌊x / 360⌋ < ⌈x / 360⌉ := by exact_mod_cast hfl
        have hcl : ⌈x / 360⌉ ≤ ⌊x / 360⌋ + 1 := Int.ceil_le_floor_add_one _
        omega
      have hfloor1 : ⌊r1 / 360⌋ = -1 := by
        rw [Int.floor_eq_iff]
        constructor
        · push_cast
          rw [le_div_iff₀ h360]
          linarith
        · push_cast
          rw [div_lt_iff₀ h360]
          linarith
      have hr360 : (r1 + 360) / 360 = r1 / 360 + 1 := by field_simp
      unfold jsMod jsTrunc
      rw [if_pos]
      · rw [hr360, Int.floor_add_one, hfloor1]
        have : x - 360 * (⌊x / 360⌋ : ℝ) = r1 + 360 := by
          simp only [hr1, hfc]
          push_cast
          ring
        rw [this]
        push_cast
        ring
      · rw [hr360]
        have : (-1 : ℝ) < r1 / 360 := by
          rw [lt_div_iff₀ h360]; linarith
        linarith

/-- **C6.** For a body name present in the static ephemeris table (which
covers the eight planets and five named dwarf planets), the mean-anomaly
lookup returns `(M0 + n·Δt)` reduced mod 360 into `[0, 360)`; for a name
not in the table it returns exactly `0` and flags the non-fatal
`console.warn` branch instead of raising. -/
theorem calculateMeanAnomaly_spec :
    (∀ (name : String) (d : ℝ) (eph : EphemerisEntry),
      PLANET_EPHEMERIS name = some eph →
      calculateMeanAnomaly name d =
        (eph.meanAnomalyAtEpoch + eph.meanMotion * d) -
          360 * (⌊(eph.meanAnomalyAtEpoch + eph.meanMotion * d) / 360⌋ : ℝ) ∧
      0 ≤ calculateMeanAnomaly name d ∧ calculateMeanAnomaly name d < 360) ∧
    (∀ (name : String) (d : ℝ), PLANET_EPHEMERIS name = none →
      calculateMeanAnomaly name d = 0 ∧ calculateMeanAnomalyWarns name = true) ∧
    (∀ name ∈ (["Mercury", "Venus", "Earth", "Mars", "Jupiter", "Saturn", "Uranus",
        "Neptune", "Ceres", "Pluto", "Haumea", "Makemake", "Eris"] : List String),
      (PLANET_EPHEMERIS name).isSome = true) := by
  refine ⟨?_, ?_, ?_⟩
  · intro name d eph heph
    have hcalc : calculateMeanAnomaly name d =
        jsMod (jsMod (eph.meanAnomalyAtEpoch + eph.meanMotion * d) 360 + 360) 360 := by
      unfold calculateMeanAnomaly
      rw [heph]
    obtain ⟨heq, hge, hlt⟩ := jsMod_normalize360 (eph.meanAnomalyAtEpoch + eph.meanMotion * d)
    rw [hcalc, heq]
    exact ⟨rfl, hge, hlt⟩
  · intro name d hnone
    constructor
    · unfold calculateMeanAnomaly
      rw [hnone]
    · unfold calculateMeanAnomalyWarns
      rw [hnone]
      rfl
  · intro name hname
    fin_cases hname <;> rfl

/-- Witness for C6: Mercury at epoch, and an unknown body. -/
theorem calculateMeanAnomaly_spec_witness :
    (calculateMeanAnomaly "Mercury" 0 =
        ((174.796 : ℝ) + 4.09233445 * 0) -
          360 * (⌊((174.796 : ℝ) + 4.09233445 * 0) / 360⌋ : ℝ) ∧
      0 ≤ calculateMeanAnomaly "Mercury" 0 ∧ calculateMeanAnomaly "Mercury" 0 < 360) ∧
    (calculateMeanAnomaly "Vulcan" 0 = 0 ∧ calculateMeanAnomalyWarns "Vulcan" = true) :=
  ⟨calculateMeanAnomaly_spec.1 "Mercury" 0 ⟨174.796, 4.09233445⟩ rfl,
    calculateMeanAnomaly_spec.2.1 "Vulcan" 0 rfl⟩

/-- **C9.** For eccentricity `e ∈ [0, 1)`, the Newton denominator
`1 - e·cos E` is at least `1 - e > 0` at every iterate of the solver's
sequence, so the solver never divides by zero; and the loop body runs at
most `maxIterations` times (and, being total, always returns a value). -/
theorem kepler_solver_safety :
    (∀ (e M : ℝ), 0 ≤ e → e < 1 →
      0 < 1 - e ∧ ∀ k : ℕ, 1 - e ≤ 1 - e * Real.cos (keplerSeq e M k)) ∧
    (∀ (e M tol : ℝ) (n : ℕ) (E : ℝ), keplerAuxSteps e M tol n E ≤ n) := by
  constructor
  · intro e M he0 he1
    refine ⟨by linarith, fun k => ?_⟩
    have hc : e * Real.cos (keplerSeq e M k) ≤ e :=
      mul_le_of_le_one_right he0 (Real.cos_le_one _)
    linarith
  · intro e M tol n
    induction n with
    | zero => intro E; simp [keplerAuxSteps]
    | succ n ih =>
      intro E
      unfold keplerAuxSteps
      split
      · omega
      · have := ih (newtonNext e M E)
        omega

/-- Witness for C9 at concrete inputs. -/
theorem kepler_solver_safety_witness :
    (0 < 1 - (1/2 : ℝ) ∧
      1 - (1/2 : ℝ) ≤ 1 - (1/2 : ℝ) * Real.cos (keplerSeq (1/2) 0 3)) ∧
    keplerAuxSteps (1/2) 0 ((1e-6 : ℝ)) 50 0 ≤ 50 :=
  ⟨⟨(kepler_solver_safety.1 (1/2) 0 (by norm_num) (by norm_num)).1,
    (kepler_solver_safety.1 (1/2) 0 (by norm_num) (by norm_num)).2 3⟩,
    kepler_solver_safety.2 (1/2) 0 ((1e-6 : ℝ)) 50 0⟩

/-- **C7.** For every orbital-elements record and every segment count
`n ≥ 3`, the first and last points returned by
`generateEllipsePoints(elements, n)` are equal: the sampled orbit curve
is closed. -/
theorem generateEllipsePoints_closed :
    ∀ (el : OrbitalElements) (n : ℕ), 3 ≤ n →
      (generateEllipsePoints el n).head? = (generateEllipsePoints el n).getLast? := by
  intro el n hn
  have hn0 : (n : ℝ) ≠ 0 := by
    have : 0 < n := lt_of_lt_of_le (by norm_num) hn
    exact_mod_cast this.ne'
  have hhead : (generateEllipsePoints el n).head? = some (ellipsePoint el n 0) := by
    unfold generateEllipsePoints
    rw [List.range_succ_eq_map]
    rfl
  have hlast : (generateEllipsePoints el n).getLast? = some (ellipsePoint el n n) := by
    unfold generateEllipsePoints
    rw [List.range_succ, List.map_append]
    rw [List.getLast?_append_of_ne_nil _ (by simp)]
    rfl
  rw [hhead, hlast]
  have hpoint : ellipsePoint el n 0 = ellipsePoint el n n := by
    rw [ellipsePoint_def, ellipsePoint_def]
    have h0 : ((0 : ℕ) : ℝ) / (n : ℝ) * π * 2 = 0 := by
      simp
    have h1 : ((n : ℕ) : ℝ) / (n : ℝ) * π * 2 = 2 * π := by
      rw [div_self hn0]; ring
    rw [h0, h1]
    have hc : Real.cos (2 * π) = Real.cos 0 := by
      rw [Real.cos_two_pi, Real.cos_zero]
    have hcadd : Real.cos (2 * π + el.periapsisArgument) =
        Real.cos (0 + el.periapsisArgument) := by
      rw [add_comm, Real.cos_add_two_pi, zero_add]
    have hsadd : Real.sin (2 * π + el.periapsisArgument) =
        Real.sin (0 + el.periapsisArgument) := by
      rw [add_comm, Real.sin_add_two_pi, zero_add]
    rw [hc, hcadd, hsadd]
  rw [hpoint]

/-- Witness for C7 at a concrete record and segment count. -/
theorem generateEllipsePoints_closed_witness :
    (generateEllipsePoints ⟨1, 0, 0, 0, none, none⟩ 4).head? =
      (generateEllipsePoints ⟨1, 0, 0, 0, none, none⟩ 4).getLast? :=
  generateEllipsePoints_closed ⟨1, 0, 0, 0, none, none⟩ 4 (by norm_num)

/-! ### Elementary trigonometric estimates for the Kepler-solver analysis -/

/-- `sin` is 1-Lipschitz. -/
theorem abs_sin_sub_sin_le (a b : ℝ) : |Real.sin a - Real.sin b| ≤ |a - b| := by
  rw [Real.sin_sub_sin, abs_mul, abs_mul]
  have h1 : |Real.sin ((a - b) / 2)| ≤ |(a - b) / 2| := Real.abs_sin_le_abs
  have h2 : |Real.cos ((a + b) / 2)| ≤ 1 := Real.abs_cos_le_one _
  have h3 : |(a - b) / 2| = |a - b| / 2 := by
    rw [abs_div]; norm_num
  have h4 : (0:ℝ) ≤ |2| * |Real.sin ((a - b) / 2)| := by positivity
  calc |2| * |Real.sin ((a - b) / 2)| * |Real.cos ((a + b) / 2)|
      ≤ |2| * |Real.sin ((a - b) / 2)| * 1 := by
        exact mul_le_mul_of_nonneg_left h2 h4
    _ = 2 * |Real.sin ((a - b) / 2)| := by rw [abs_two]; ring
    _ ≤ 2 * (|a - b| / 2) := by
        rw [← h3]
        exact mul_le_mul_of_nonneg_left h1 (by norm_num)
    _ = |a - b| := by ring

/-- `cos` is 1-Lipschitz. -/
theorem abs_cos_sub_cos_le (a b : ℝ) : |Real.cos a - Real.cos b| ≤ |a - b| := by
  rw [Real.cos_sub_cos, abs_mul, abs_mul]
  have h1 : |Real.sin ((a - b) / 2)| ≤ |(a - b) / 2| := Real.abs_sin_le_abs
  have h2 : |Real.sin ((a + b) / 2)| ≤ 1 := Real.abs_sin_le_one _
  have h3 : |(a - b) / 2| = |a - b| / 2 := by
    rw [abs_div]; norm_num
  have h4 : (0:ℝ) ≤ |(-2 : ℝ)| * |Real.sin ((a + b) / 2)| := by positivity
  calc |(-2 : ℝ)| * |Real.sin ((a + b) / 2)| * |Real.sin ((a - b) / 2)|
      ≤ |(-2 : ℝ)| * |Real.sin ((a + b) / 2)| * (|a - b| / 2) := by
        exact mul_le_mul_of_nonneg_left (h3 ▸ h1) h4
    _ ≤ |(-2 : ℝ)| * 1 * (|a - b| / 2) := by
        have : (0:ℝ) ≤ |a - b| / 2 := by positivity
        exact mul_le_mul_of_nonneg_right
          (mul_le_mul_of_nonneg_left h2 (abs_nonneg _)) this
    _ = |a - b| := by rw [abs_neg, abs_two]; ring

/-- `cos` is antitone on `[0, π]`. -/
theorem cos_anti_on_Icc {a b : ℝ} (ha : 0 ≤ a) (hab : a ≤ b) (hb : b ≤ π) :
    Real.cos b ≤ Real.cos a := by
  rcases eq_or_lt_of_le hab with h | h
  · rw [h]
  · exact (Real.strictAntiOn_cos ⟨ha, hab.trans hb⟩ ⟨ha.trans hab, hb⟩ h).le

/-- Quadratic bound on the sine remainder: `|x - sin x| ≤ x²/2`. -/
theorem abs_self_sub_sin_le (x : ℝ) : |x - Real.sin x| ≤ x ^ 2 / 2 := by
  have key : ∀ y : ℝ, 0 ≤ y → y - Real.sin y ≤ y ^ 2 / 2 := by
    intro y hy
    have hd : ∀ t : ℝ, HasDerivAt (fun s => s * s / 2 - s + Real.sin s)
        (t - 1 + Real.cos t) t := by
      intro t
      have h1 : HasDerivAt (fun s : ℝ => s * s) (1 * t + t * 1) t :=
        (hasDerivAt_id t).mul (hasDerivAt_id t)
      have h2 := ((h1.div_const 2).sub (hasDerivAt_id t)).add (Real.hasDerivAt_sin t)
      convert h2 using 1
      ring
    have hmono : MonotoneOn (fun s => s * s / 2 - s + Real.sin s) (Set.Ici 0) := by
      apply monotoneOn_of_deriv_nonneg (convex_Ici 0)
      · exact (((continuous_id.mul continuous_id).div_const 2).sub
          continuous_id |>.add Real.continuous_sin).continuousOn
      · intro t _
        exact (hd t).differentiableAt.differentiableWithinAt
      · intro t ht
        rw [interior_Ici] at ht
        rw [(hd t).deriv]
        rcases le_or_lt t 2 with h2 | h2
        · have hcos : 1 - t ^ 2 / 2 ≤ Real.cos t := Real.one_sub_sq_div_two_le_cos
          nlinarith [le_of_lt ht]
        · have hcos : -1 ≤ Real.cos t := Real.neg_one_le_cos t
          linarith
    have h0 : (fun s => s * s / 2 - s + Real.sin s) 0 ≤
        (fun s => s * s / 2 - s + Real.sin s) y :=
      hmono Set.left_mem_Ici (Set.mem_Ici.mpr hy) hy
    simp only [Real.sin_zero] at h0
    nlinarith [h0]
  rcases le_or_lt 0 x with hx | hx
  · rw [abs_of_nonneg (by linarith [Real.sin_le hx])]
    exact key x hx
  · have h1 := key (-x) (by linarith)
    rw [Real.sin_neg] at h1
    rw [abs_of_nonpos (by linarith [Real.le_sin hx.le])]
    nlinarith [h1]

/-- The Newton-step residual identity bound:
`|sin (E - d) - sin E + d·cos E| ≤ (3/4)·d²`. -/
theorem newton_residual_aux (E d : ℝ) :
    |Real.sin (E - d) - Real.sin E + d * Real.cos E| ≤ 3 / 4 * d ^ 2 := by
  have hrw : Real.sin (E - d) - Real.sin E + d * Real.cos E =
      2 * ((d / 2) * (Real.cos E - Real.cos (E - d / 2))) +
      2 * ((d / 2 - Real.sin (d / 2)) * Real.cos (E - d / 2)) := by
    have hs : Real.sin (E - d) - Real.sin E =
        -2 * Real.sin (d / 2) * Real.cos (E - d / 2) := by
      rw [Real.sin_sub_sin]
      rw [show (E - d - E) / 2 = -(d / 2) by ring, show (E - d + E) / 2 = E - d / 2 by ring,
        Real.sin_neg]
      ring
    rw [hs]; ring
  rw [hrw]
  have h1 : |2 * ((d / 2) * (Real.cos E - Real.cos (E - d / 2)))| ≤ d ^ 2 / 2 := by
    rw [abs_mul, abs_mul]
    have hc : |Real.cos E - Real.cos (E - d / 2)| ≤ |d / 2| := by
      have := abs_cos_sub_cos_le E (E - d / 2)
      simpa using this
    calc |(2:ℝ)| * (|d / 2| * |Real.cos E - Real.cos (E - d / 2)|)
        ≤ |(2:ℝ)| * (|d / 2| * |d / 2|) := by
          refine mul_le_mul_of_nonneg_left ?_ (abs_nonneg _)
          exact mul_le_mul_of_nonneg_left hc (abs_nonneg _)
      _ = 2 * (|d / 2| * |d / 2|) := by rw [abs_two]
      _ = d ^ 2 / 2 := by
          rw [← abs_mul, abs_of_nonneg (mul_self_nonneg (d / 2))]
          ring
  have h2 : |2 * ((d / 2 - Real.sin (d / 2)) * Real.cos (E - d / 2))| ≤ d ^ 2 / 4 := by
    rw [abs_mul, abs_mul]
    have hx : |d / 2 - Real.sin (d / 2)| ≤ (d / 2) ^ 2 / 2 := abs_self_sub_sin_le (d / 2)
    have hcos : |Real.cos (E - d / 2)| ≤ 1 := Real.abs_cos_le_one _
    calc |(2:ℝ)| * (|d / 2 - Real.sin (d / 2)| * |Real.cos (E - d / 2)|)
        ≤ |(2:ℝ)| * (((d / 2) ^ 2 / 2) * 1) := by
          refine mul_le_mul_of_nonneg_left ?_ (abs_nonneg _)
          exact mul_le_mul hx hcos (abs_nonneg _) (by positivity)
      _ = d ^ 2 / 4 := by rw [abs_two]; ring
  calc |2 * ((d / 2) * (Real.cos E - Real.cos (E - d / 2))) +
        2 * ((d / 2 - Real.sin (d / 2)) * Real.cos (E - d / 2))|
      ≤ |2 * ((d / 2) * (Real.cos E - Real.cos (E - d / 2)))| +
        |2 * ((d / 2 - Real.sin (d / 2)) * Real.cos (E - d / 2))| := abs_add _ _
    _ ≤ d ^ 2 / 2 + d ^ 2 / 4 := add_le_add h1 h2
    _ = 3 / 4 * d ^ 2 := by ring

/-- Chord-tangent bounds for `sin` on `[0, π]`: for `0 ≤ a ≤ b ≤ π`,
`(b - a)·cos b ≤ sin b - sin a ≤ (b - a)·cos a`. -/
theorem sin_chord_bounds {a b : ℝ} (ha : 0 ≤ a) (hab : a ≤ b) (hb : b ≤ π) :
    (b - a) * Real.cos b ≤ Real.sin b - Real.sin a ∧
    Real.sin b - Real.sin a ≤ (b - a) * Real.cos a := by
  constructor
  · -- lower bound: g₁ x = sin x - sin a - (x - a) cos x is monotone on [a, π]
    have hd : ∀ t : ℝ, HasDerivAt
        (fun s => Real.sin s - Real.sin a - (s - a) * Real.cos s)
        ((t - a) * Real.sin t) t := by
      intro t
      have h1 : HasDerivAt (fun s : ℝ => s - a) 1 t := (hasDerivAt_id t).sub_const a
      have h2 : HasDerivAt (fun s : ℝ => (s - a) * Real.cos s)
          (1 * Real.cos t + (t - a) * -Real.sin t) t := h1.mul (Real.hasDerivAt_cos t)
      have h3 := ((Real.hasDerivAt_sin t).sub_const (Real.sin a)).sub h2
      convert h3 using 1
      ring
    have hmono : MonotoneOn (fun s => Real.sin s - Real.sin a - (s - a) * Real.cos s)
        (Set.Icc a π) := by
      apply monotoneOn_of_deriv_nonneg (convex_Icc a π)
      · exact ((Real.continuous_sin.sub continuous_const).sub
          ((continuous_id.sub continuous_const).mul Real.continuous_cos)).continuousOn
      · intro t _
        exact (hd t).differentiableAt.differentiableWithinAt
      · intro t ht
        rw [interior_Icc] at ht
        rw [(hd t).deriv]
        have hsin : 0 ≤ Real.sin t :=
          Real.sin_nonneg_of_nonneg_of_le_pi (ha.trans ht.1.le) ht.2.le
        have : 0 ≤ t - a := by linarith [ht.1]
        positivity
    have h0 := hmono (Set.mem_Icc.mpr ⟨le_refl a, hab.trans hb⟩)
      (Set.mem_Icc.mpr ⟨hab, hb⟩) hab
    simp only [sub_self, zero_mul] at h0
    linarith [h0]
  · -- upper bound: g₂ x = sin a + (x - a) cos a - sin x is monotone on [a, π]
    have hd : ∀ t : ℝ, HasDerivAt
        (fun s => Real.sin a + (s - a) * Real.cos a - Real.sin s)
        (Real.cos a - Real.cos t) t := by
      intro t
      have h1 : HasDerivAt (fun s : ℝ => (s - a) * Real.cos a) (1 * Real.cos a) t :=
        ((hasDerivAt_id t).sub_const a).mul_const (Real.cos a)
      have h2 := (h1.const_add (Real.sin a)).sub (Real.hasDerivAt_sin t)
      convert h2 using 1
      ring
    have hmono : MonotoneOn (fun s => Real.sin a + (s - a) * Real.cos a - Real.sin s)
        (Set.Icc a π) := by
      apply monotoneOn_of_deriv_nonneg (convex_Icc a π)
      · exact ((continuous_const.add
          ((continuous_id.sub continuous_const).mul continuous_const)).sub
          Real.continuous_sin).continuousOn
      · intro t _
        exact (hd t).differentiableAt.differentiableWithinAt
      · intro t ht
        rw [interior_Icc] at ht
        rw [(hd t).deriv]
        have h2 := cos_anti_on_Icc ha ht.1.le ht.2.le
        linarith
    have h0 := hmono (Set.mem_Icc.mpr ⟨le_refl a, hab.trans hb⟩)
      (Set.mem_Icc.mpr ⟨hab, hb⟩) hab
    simp only [sub_self, zero_mul] at h0
    linarith [h0]

/-- Derivative of `t ↦ sin t - t·cos t` is `t·sin t`. -/
theorem chi_hasDerivAt (t : ℝ) :
    HasDerivAt (fun s => Real.sin s - s * Real.cos s) (t * Real.sin t) t := by
  have h1 : HasDerivAt (fun s : ℝ => s * Real.cos s)
      (1 * Real.cos t + t * -Real.sin t) t :=
    (hasDerivAt_id t).mul (Real.hasDerivAt_cos t)
  have h2 := (Real.hasDerivAt_sin t).sub h1
  convert h2 using 1
  ring

/-- `t ↦ sin t - t·cos t` is monotone on `[0, π]`. -/
theorem chi_monotoneOn : MonotoneOn (fun s => Real.sin s - s * Real.cos s)
    (Set.Icc 0 π) := by
  apply monotoneOn_of_deriv_nonneg (convex_Icc 0 π)
  · exact (Real.continuous_sin.sub (continuous_id.mul Real.continuous_cos)).continuousOn
  · intro t _
    exact (chi_hasDerivAt t).differentiableAt.differentiableWithinAt
  · intro t ht
    rw [interior_Icc] at ht
    rw [(chi_hasDerivAt t).deriv]
    exact mul_nonneg ht.1.le (Real.sin_nonneg_of_nonneg_of_le_pi ht.1.le ht.2.le)

/-- `0 ≤ sin t - t·cos t` on `[0, π]`. -/
theorem chi_nonneg {t : ℝ} (h0 : 0 ≤ t) (hpi : t ≤ π) :
    0 ≤ Real.sin t - t * Real.cos t := by
  have := chi_monotoneOn (Set.mem_Icc.mpr ⟨le_refl 0, Real.pi_pos.le⟩)
    (Set.mem_Icc.mpr ⟨h0, hpi⟩) h0
  simpa using this

/-- `sin t - t·cos t ≤ t²/2` for `t ≥ 0`. -/
theorem chi_le_half_sq {t : ℝ} (h0 : 0 ≤ t) :
    Real.sin t - t * Real.cos t ≤ t ^ 2 / 2 := by
  have hd : ∀ s : ℝ, HasDerivAt
      (fun r => r * r / 2 - (Real.sin r - r * Real.cos r)) (s - s * Real.sin s) s := by
    intro s
    have h1 : HasDerivAt (fun r : ℝ => r * r) (1 * s + s * 1) s :=
      (hasDerivAt_id s).mul (hasDerivAt_id s)
    have h2 := (h1.div_const 2).sub (chi_hasDerivAt s)
    convert h2 using 1
    ring
  have hmono : MonotoneOn (fun r => r * r / 2 - (Real.sin r - r * Real.cos r))
      (Set.Ici 0) := by
    apply monotoneOn_of_deriv_nonneg (convex_Ici 0)
    · exact (((continuous_id.mul continuous_id).div_const 2).sub
        (Real.continuous_sin.sub (continuous_id.mul Real.continuous_cos))).continuousOn
    · intro s _
      exact (hd s).differentiableAt.differentiableWithinAt
    · intro s hs
      rw [interior_Ici] at hs
      rw [(hd s).deriv]
      have hsin : Real.sin s ≤ 1 := Real.sin_le_one s
      nlinarith [hs.le]
  have h0' := hmono Set.left_mem_Ici (Set.mem_Ici.mpr h0) h0
  simp only [Real.sin_zero, Real.cos_zero] at h0'
  nlinarith [h0']

/-- Taylor-based upper bound for `sin b - b·cos b` at points near `π`,
via the reflection `b = π - y` and degree-4 bounds at `y`. -/
theorem chi_taylor_bound {b : ℝ} (hlo : 2.2 ≤ b) (hhi : b ≤ 2.83) :
    Real.sin b - b * Real.cos b ≤
      ((3.141593 - b) - (3.141593 - b) ^ 3 / 6 + (3.141593 - b) ^ 4 * (5 / 96)) +
      b * (1 - (3.141592 - b) ^ 2 / 2 + (3.141592 - b) ^ 4 * (5 / 96)) := by
  have hpiU : π < 3.141593 := Real.pi_lt_d6
  have hpiL : (3.141592 : ℝ) < π := Real.pi_gt_d6
  set yU := (3.141593 : ℝ) - b with hyU
  set yL := (3.141592 : ℝ) - b with hyL
  have hyb : π - b < yU := by simp only [hyU]; linarith
  have hyb' : yL < π - b := by simp only [hyL]; linarith
  have hyL0 : 0 ≤ yL := by simp only [hyL]; linarith
  have hyU1 : yU ≤ 1 := by simp only [hyU]; linarith
  have hyU0 : 0 ≤ yU := by simp only [hyU]; linarith
  have hpb0 : 0 ≤ π - b := by linarith
  have hpbhalf : π - b ≤ π / 2 := by linarith
  have hUhalf : yU ≤ π / 2 := by
    have : (3 : ℝ) < π := Real.pi_gt_three
    simp only [hyU]; linarith
  -- sin b = sin (π - b) ≤ sin yU ≤ Taylor(yU)
  have hsb : Real.sin b = Real.sin (π - b) := (Real.sin_pi_sub b).symm
  have hmono : Real.sin (π - b) ≤ Real.sin yU := by
    have hm := Real.strictMonoOn_sin (a := π - b) (b := yU)
      ⟨by linarith [Real.pi_pos], hpbhalf⟩ ⟨by linarith [Real.pi_pos], hUhalf⟩ hyb
    exact hm.le
  have hsinU : Real.sin yU ≤ yU - yU ^ 3 / 6 + yU ^ 4 * (5 / 96) := by
    have hb := Real.sin_bound (x := yU) (by rw [abs_of_nonneg hyU0]; exact hyU1)
    have h2 := (abs_le.mp hb).2
    rw [abs_of_nonneg hyU0] at h2
    linarith
  -- cos b = -cos (π - b), and cos (π - b) ≤ cos yL ≤ Taylor(yL)
  have hcb : Real.cos b = -Real.cos (π - b) := by
    have := Real.cos_pi_sub b
    linarith
  have hcanti : Real.cos (π - b) ≤ Real.cos yL :=
    cos_anti_on_Icc hyL0 hyb'.le (by linarith)
  have hcosU : Real.cos yL ≤ 1 - yL ^ 2 / 2 + yL ^ 4 * (5 / 96) := by
    have hyL1 : |yL| ≤ 1 := by
      rw [abs_of_nonneg hyL0]; simp only [hyL]; linarith
    have hb := Real.cos_bound hyL1
    have h2 := (abs_le.mp hb).2
    rw [abs_of_nonneg hyL0] at h2
    linarith
  have hb0 : (0 : ℝ) ≤ b := by linarith
  have hbc : b * Real.cos (π - b) ≤ b * (1 - yL ^ 2 / 2 + yL ^ 4 * (5 / 96)) :=
    mul_le_mul_of_nonneg_left (hcanti.trans hcosU) hb0
  calc Real.sin b - b * Real.cos b
      = Real.sin (π - b) + b * Real.cos (π - b) := by rw [hsb, hcb]; ring
    _ ≤ (yU - yU ^ 3 / 6 + yU ^ 4 * (5 / 96)) +
        b * (1 - yL ^ 2 / 2 + yL ^ 4 * (5 / 96)) := by
        have := hmono.trans hsinU
        linarith

/-- The central inequality `sin t - t·cos t ≤ (10/9)·t` on `[0, π]`,
proved by a quadratic bound below `20/9`, Taylor chunks up to `2.8275`,
and the trivial bound `π` beyond. -/
theorem chi_le_ten_ninths {t : ℝ} (h0 : 0 ≤ t) (hpi : t ≤ π) :
    Real.sin t - t * Real.cos t ≤ 10 / 9 * t := by
  have chunk : ∀ a b : ℝ, 0 ≤ a → b ≤ π →
      Real.sin b - b * Real.cos b ≤ 10 / 9 * a →
      a ≤ t → t ≤ b → Real.sin t - t * Real.cos t ≤ 10 / 9 * t := by
    intro a b ha hbpi hcb hat htb
    have h1 : Real.sin t - t * Real.cos t ≤ Real.sin b - b * Real.cos b := by
      have := chi_monotoneOn (Set.mem_Icc.mpr ⟨h0, hpi⟩)
        (Set.mem_Icc.mpr ⟨h0.trans htb, hbpi⟩) htb
      simpa using this
    have h2 : (10 : ℝ) / 9 * a ≤ 10 / 9 * t := by linarith
    linarith
  have hpiL : (3.141592 : ℝ) < π := Real.pi_gt_d6
  have hpiU : π < 3.141593 := Real.pi_lt_d6
  rcases le_or_lt t (20 / 9) with hc | hc
  · have := chi_le_half_sq h0
    nlinarith
  rcases le_or_lt t 2.36 with hc1 | hc1
  · refine chunk (20 / 9) 2.36 (by norm_num) (by linarith) ?_ hc.le hc1
    have := chi_taylor_bound (b := 2.36) (by norm_num) (by norm_num)
    nlinarith [this]
  rcases le_or_lt t 2.48 with hc2 | hc2
  · refine chunk 2.36 2.48 (by norm_num) (by linarith) ?_ hc1.le hc2
    have := chi_taylor_bound (b := 2.48) (by norm_num) (by norm_num)
    nlinarith [this]
  rcases le_or_lt t 2.58 with hc3 | hc3
  · refine chunk 2.48 2.58 (by norm_num) (by linarith) ?_ hc2.le hc3
    have := chi_taylor_bound (b := 2.58) (by norm_num) (by norm_num)
    nlinarith [this]
  rcases le_or_lt t 2.68 with hc4 | hc4
  · refine chunk 2.58 2.68 (by norm_num) (by linarith) ?_ hc3.le hc4
    have := chi_taylor_bound (b := 2.68) (by norm_num) (by norm_num)
    nlinarith [this]
  rcases le_or_lt t 2.77 with hc5 | hc5
  · refine chunk 2.68 2.77 (by norm_num) (by linarith) ?_ hc4.le hc5
    have := chi_taylor_bound (b := 2.77) (by norm_num) (by norm_num)
    nlinarith [this]
  rcases le_or_lt t 2.8275 with hc6 | hc6
  · refine chunk 2.77 2.8275 (by norm_num) (by linarith) ?_ hc5.le hc6
    have := chi_taylor_bound (b := 2.8275) (by norm_num) (by norm_num)
    nlinarith [this]
  · -- tail: t ≥ 2.8275 ≥ 0.9·π, use sin t - t·cos t ≤ sin π - π·cos π = π
    have h1 : Real.sin t - t * Real.cos t ≤ Real.sin π - π * Real.cos π := by
      have := chi_monotoneOn (Set.mem_Icc.mpr ⟨h0, hpi⟩)
        (Set.mem_Icc.mpr ⟨Real.pi_pos.le, le_refl π⟩) hpi
      simpa using this
    rw [Real.sin_pi, Real.cos_pi] at h1
    have h2 : Real.sin t - t * Real.cos t ≤ π := by linarith
    linarith

/-- Kepler overshoot-containment inequality: for `E ∈ [0, π]` and
`e ∈ [0, 9/10]`, `e·sin E ≤ (π - E)·(1 - e·cos E)`.  This keeps the
first Newton step from `E₀` inside `[0, π]`. -/
theorem kepler_overshoot_bound {E e : ℝ} (hE0 : 0 ≤ E) (hEpi : E ≤ π)
    (_he0 : 0 ≤ e) (he9 : e ≤ 9 / 10) :
    e * Real.sin E ≤ (π - E) * (1 - e * Real.cos E) := by
  have hsinE : Real.sin E = Real.sin (π - E) := (Real.sin_pi_sub E).symm
  have hcosE : Real.cos E = -Real.cos (π - E) := by
    have := Real.cos_pi_sub E
    linarith
  set t := π - E with ht
  have ht0 : 0 ≤ t := by simp only [ht]; linarith
  have htpi : t ≤ π := by simp only [ht]; linarith
  have hχ : Real.sin t - t * Real.cos t ≤ 10 / 9 * t := chi_le_ten_ninths ht0 htpi
  have hχ0 : 0 ≤ Real.sin t - t * Real.cos t := chi_nonneg ht0 htpi
  have he : e * (Real.sin t - t * Real.cos t) ≤ (9 / 10) * (Real.sin t - t * Real.cos t) :=
    mul_le_mul_of_nonneg_right he9 hχ0
  have hfin : e * (Real.sin t - t * Real.cos t) ≤ t := by
    calc e * (Real.sin t - t * Real.cos t)
        ≤ (9 / 10) * (Real.sin t - t * Real.cos t) := he
      _ ≤ (9 / 10) * (10 / 9 * t) := by linarith
      _ = t := by ring
  rw [hsinE, hcosE]
  nlinarith [hfin]

/-! ### Convergence analysis of the Newton loop -/

/-- Pointwise evaluations of the majorant tables. -/
theorem kepV_eval_0 : kepV 0 = 15 := rfl
theorem kepV_eval_1 : kepV 1 = 14.07 := rfl
theorem kepV_eval_2 : kepV 2 = 13.14 := rfl
theorem kepV_eval_3 : kepV 3 = 12.22 := rfl
theorem kepV_eval_4 : kepV 4 = 11.3 := rfl
theorem kepV_eval_5 : kepV 5 = 10.39 := rfl
theorem kepV_eval_6 : kepV 6 = 9.478 := rfl
theorem kepV_eval_7 : kepV 7 = 8.574 := rfl
theorem kepV_eval_8 : kepV 8 = 7.679 := rfl
theorem kepV_eval_9 : kepV 9 = 6.795 := rfl
theorem kepV_eval_10 : kepV 10 = 5.924 := rfl
theorem kepV_eval_11 : kepV 11 = 5.069 := rfl
theorem kepV_eval_12 : kepV 12 = 4.234 := rfl
theorem kepV_eval_13 : kepV 13 = 3.426 := rfl
theorem kepV_eval_14 : kepV 14 = 2.652 := rfl
theorem kepV_eval_15 : kepV 15 = 1.926 := rfl
theorem kepV_eval_16 : kepV 16 = 1.268 := rfl
theorem kepV_eval_17 : kepV 17 = 0.709 := rfl
theorem kepV_eval_18 : kepV 18 = 0.2942 := rfl
theorem kepV_eval_19 : kepV 19 = 0.06688 := rfl
theorem kepV_eval_20 : kepV 20 = 0.004193 := rfl
theorem kepV_eval_21 : kepV 21 = 0.00001751 := rfl
theorem kepV_eval_22 : kepV 22 = 0.0000000003066 := rfl
theorem kepV_eval_23 : kepV 23 = 0.0000000003066 := rfl

theorem kepD_eval_0 : kepD 0 = 3.15 := rfl
theorem kepD_eval_1 : kepD 1 = 2.954 := rfl
theorem kepD_eval_2 : kepD 2 = 2.758 := rfl
theorem kepD_eval_3 : kepD 3 = 2.563 := rfl
theorem kepD_eval_4 : kepD 4 = 2.37 := rfl
theorem kepD_eval_5 : kepD 5 = 2.178 := rfl
theorem kepD_eval_6 : kepD 6 = 1.987 := rfl
theorem kepD_eval_7 : kepD 7 = 1.798 := rfl
theorem kepD_eval_8 : kepD 8 = 1.611 := rfl
theorem kepD_eval_9 : kepD 9 = 1.426 := rfl
theorem kepD_eval_10 : kepD 10 = 1.244 := rfl
theorem kepD_eval_11 : kepD 11 = 1.065 := rfl
theorem kepD_eval_12 : kepD 12 = 0.8896 := rfl
theorem kepD_eval_13 : kepD 13 = 0.7197 := rfl
theorem kepD_eval_14 : kepD 14 = 0.5571 := rfl
theorem kepD_eval_15 : kepD 15 = 0.4046 := rfl
theorem kepD_eval_16 : kepD 16 = 0.2664 := rfl
theorem kepD_eval_17 : kepD 17 = 0.149 := rfl
theorem kepD_eval_18 : kepD 18 = 0.06182 := rfl
theorem kepD_eval_19 : kepD 19 = 0.01406 := rfl
theorem kepD_eval_20 : kepD 20 = 0.0008814 := rfl
theorem kepD_eval_21 : kepD 21 = 0.000003681 := rfl
theorem kepD_eval_22 : kepD 22 = 0.00000000006446 := rfl
theorem kepD_eval_23 : kepD 23 = 0.00000000006446 := rfl


/-- Step facts for the majorant tables: positivity, monotonicity,
`v_k² ≤ v_{k+1}(1+v_k)` and `d_k·v_k ≤ d_{k+1}(1+v_k)`. -/
theorem kepTable_facts (k : ℕ) :
    0 < kepV k ∧ kepV (k + 1) ≤ kepV k ∧
    kepV k ^ 2 ≤ kepV (k + 1) * (1 + kepV k) ∧
    0 < kepD k ∧ kepD k * kepV k ≤ kepD (k + 1) * (1 + kepV k) := by
  rcases lt_or_ge k 23 with hk | hk
  · interval_cases k <;>
      norm_num [kepV_eval_0, kepV_eval_1, kepV_eval_2, kepV_eval_3, kepV_eval_4, kepV_eval_5, kepV_eval_6, kepV_eval_7, kepV_eval_8, kepV_eval_9, kepV_eval_10, kepV_eval_11, kepV_eval_12, kepV_eval_13, kepV_eval_14, kepV_eval_15, kepV_eval_16, kepV_eval_17, kepV_eval_18, kepV_eval_19, kepV_eval_20, kepV_eval_21, kepV_eval_22, kepV_eval_23, kepD_eval_0, kepD_eval_1, kepD_eval_2, kepD_eval_3, kepD_eval_4, kepD_eval_5, kepD_eval_6, kepD_eval_7, kepD_eval_8, kepD_eval_9, kepD_eval_10, kepD_eval_11, kepD_eval_12, kepD_eval_13, kepD_eval_14, kepD_eval_15, kepD_eval_16, kepD_eval_17, kepD_eval_18, kepD_eval_19, kepD_eval_20, kepD_eval_21, kepD_eval_22, kepD_eval_23]
  · have h1 : kepV k = 0.0000000003066 := by
      unfold kepV
      apply List.getD_eq_default
      rw [show kepVList.length = 23 from rfl]
      omega
    have h2 : kepV (k + 1) = 0.0000000003066 := by
      unfold kepV
      apply List.getD_eq_default
      rw [show kepVList.length = 23 from rfl]
      omega
    have h3 : kepD k = 0.00000000006446 := by
      unfold kepD
      apply List.getD_eq_default
      rw [show kepDList.length = 23 from rfl]
      omega
    have h4 : kepD (k + 1) = 0.00000000006446 := by
      unfold kepD
      apply List.getD_eq_default
      rw [show kepDList.length = 23 from rfl]
      omega
    rw [h1, h2, h3, h4]
    norm_num

/-- The function `E ↦ E - e·sin E` grows at least linearly with rate
`1 - e`. -/
theorem kepler_f_gap {e a b : ℝ} (he0 : 0 ≤ e) (hab : a ≤ b) :
    (1 - e) * (b - a) ≤ (b - e * Real.sin b) - (a - e * Real.sin a) := by
  have h := abs_sin_sub_sin_le b a
  rw [abs_of_nonneg (by linarith) (a := b - a)] at h
  have h2 : Real.sin b - Real.sin a ≤ b - a := (abs_le.mp h).2
  have h3 : e * (Real.sin b - Real.sin a) ≤ e * (b - a) :=
    mul_le_mul_of_nonneg_left h2 he0
  nlinarith

/-- The Kepler equation `E - e·sin E = M` has a solution in `[M, π]`
for `M ∈ [0, π]` and `e ≥ 0`. -/
theorem kepler_root_exists {e M : ℝ} (he0 : 0 ≤ e) (hM0 : 0 ≤ M) (hMpi : M ≤ π) :
    ∃ Es, M ≤ Es ∧ Es ≤ π ∧ Es - e * Real.sin Es - M = 0 := by
  have hcont : ContinuousOn (fun E => E - e * Real.sin E - M) (Set.Icc M π) :=
    ((continuous_id.sub (continuous_const.mul Real.continuous_sin)).sub
      continuous_const).continuousOn
  have hfM : (fun E => E - e * Real.sin E - M) M ≤ 0 := by
    have hsin : 0 ≤ Real.sin M := Real.sin_nonneg_of_nonneg_of_le_pi hM0 hMpi
    simp only
    nlinarith
  have hfpi : 0 ≤ (fun E => E - e * Real.sin E - M) π := by
    simp only [Real.sin_pi]
    nlinarith
  have hmem : (0 : ℝ) ∈ Set.Icc ((fun E => E - e * Real.sin E - M) M)
      ((fun E => E - e * Real.sin E - M) π) := Set.mem_Icc.mpr ⟨hfM, hfpi⟩
  obtain ⟨Es, hEs, hfEs⟩ := intermediate_value_Icc hMpi hcont hmem
  exact ⟨Es, hEs.1, hEs.2, hfEs⟩

/-- Distance from the initial guess `E₀ = M + e·sin M` to the root:
`|E₀ - E*| ≤ e²·sin E*` (stated via the root equation). -/
theorem kepler_E0_dist {e M Es : ℝ} (he0 : 0 ≤ e) (hMle : M ≤ Es)
    (hroot : Es - e * Real.sin Es - M = 0) :
    |M + e * Real.sin M - Es| ≤ e ^ 2 * Real.sin Es := by
  have hgap : Es - M = e * Real.sin Es := by linarith
  have h1 : M + e * Real.sin M - Es = e * (Real.sin M - Real.sin Es) := by
    nlinarith [hgap]
  rw [h1, abs_mul, abs_of_nonneg he0]
  have h2 : |Real.sin M - Real.sin Es| ≤ |M - Es| := abs_sin_sub_sin_le M Es
  have h3 : |M - Es| = e * Real.sin Es := by
    rw [abs_of_nonpos (by linarith)]
    linarith
  have h4 : e * |Real.sin M - Real.sin Es| ≤ e * (e * Real.sin Es) := by
    refine mul_le_mul_of_nonneg_left ?_ he0
    rw [← h3]; exact h2
  nlinarith [h4]

/-- One Newton step from a point at or right of the root, inside
`[0, π]`: the next iterate stays in `[E*, E]` and the error contracts:
`(E' - E*)·(F + e·d) ≤ e·d²` where `d = E - E*`, `F = 1 - e·cos E*`. -/
theorem kepler_mono_step {e M Es E : ℝ} (he0 : 0 ≤ e) (he9 : e ≤ 9 / 10)
    (hEs0 : 0 ≤ Es) (hroot : Es - e * Real.sin Es - M = 0)
    (hE : Es ≤ E) (hEpi : E ≤ π) :
    Es ≤ newtonNext e M E ∧ newtonNext e M E ≤ E ∧
    (newtonNext e M E - Es) * ((1 - e * Real.cos Es) + e * (E - Es)) ≤
      e * (E - Es) ^ 2 := by
  have hd0 : 0 ≤ E - Es := by linarith
  have hden : (0:ℝ) < 1 - e * Real.cos E := by
    have h1 : e * Real.cos E ≤ e * 1 := mul_le_mul_of_nonneg_left (Real.cos_le_one E) he0
    linarith
  have hF0 : (0:ℝ) < 1 - e * Real.cos Es := by
    have h1 : e * Real.cos Es ≤ e * 1 := mul_le_mul_of_nonneg_left (Real.cos_le_one Es) he0
    linarith
  obtain ⟨hlow, hup⟩ := sin_chord_bounds hEs0 hE hEpi
  have hcos_mono : Real.cos E ≤ Real.cos Es := cos_anti_on_Icc hEs0 hE hEpi
  have hclip : Real.cos Es - Real.cos E ≤ E - Es := by
    have h := abs_cos_sub_cos_le Es E
    have h2 := (abs_le.mp h).2
    have h3 : |Es - E| = E - Es := by rw [abs_of_nonpos (by linarith)]; ring
    linarith [h3 ▸ h2]
  have hM : M = Es - e * Real.sin Es := by linarith
  have hkey : (newtonNext e M E - Es) * (1 - e * Real.cos E) =
      e * ((Real.sin E - Real.sin Es) - (E - Es) * Real.cos E) := by
    unfold newtonNext newtonStep
    rw [hM]
    field_simp
    ring
  have hη0 : 0 ≤ (Real.sin E - Real.sin Es) - (E - Es) * Real.cos E := by linarith
  have hηc : (Real.sin E - Real.sin Es) - (E - Es) * Real.cos E ≤
      (E - Es) * (Real.cos Es - Real.cos E) := by nlinarith [hup]
  have hX : newtonNext e M E - Es =
      e * ((Real.sin E - Real.sin Es) - (E - Es) * Real.cos E) / (1 - e * Real.cos E) := by
    rw [eq_div_iff hden.ne']
    exact hkey
  have ha : Es ≤ newtonNext e M E := by
    have h1 : 0 ≤ e * ((Real.sin E - Real.sin Es) - (E - Es) * Real.cos E) /
        (1 - e * Real.cos E) := div_nonneg (mul_nonneg he0 hη0) hden.le
    linarith [hX ▸ h1]
  have hb : newtonNext e M E ≤ E := by
    have hfE : E - e * Real.sin E - M = (E - Es) - e * (Real.sin E - Real.sin Es) := by
      rw [hM]; ring
    have h5 : e * (Real.sin E - Real.sin Es) ≤ e * ((E - Es) * Real.cos Es) :=
      mul_le_mul_of_nonneg_left hup he0
    have h6 : e * ((E - Es) * Real.cos Es) ≤ e * (E - Es) := by
      nlinarith [mul_nonneg he0 hd0, Real.cos_le_one Es]
    have hf0 : 0 ≤ E - e * Real.sin E - M := by
      rw [hfE]; nlinarith [mul_nonneg he0 hd0]
    have hstep0 : 0 ≤ newtonStep e M E := div_nonneg hf0 hden.le
    unfold newtonNext
    linarith
  refine ⟨ha, hb, ?_⟩
  rw [hX]
  rw [div_mul_eq_mul_div, div_le_iff₀ hden]
  have hdenrw : 1 - e * Real.cos E =
      (1 - e * Real.cos Es) + e * (Real.cos Es - Real.cos E) := by ring
  have hc0 : 0 ≤ Real.cos Es - Real.cos E := by linarith
  have hFd0 : (0:ℝ) ≤ (1 - e * Real.cos Es) + e * (E - Es) := by
    have := mul_nonneg he0 hd0
    linarith
  have t1 : e * ((Real.sin E - Real.sin Es) - (E - Es) * Real.cos E) *
      ((1 - e * Real.cos Es) + e * (E - Es)) ≤
      e * ((E - Es) * (Real.cos Es - Real.cos E)) *
      ((1 - e * Real.cos Es) + e * (E - Es)) :=
    mul_le_mul_of_nonneg_right (mul_le_mul_of_nonneg_left hηc he0) hFd0
  have t2 : e * ((E - Es) * (Real.cos Es - Real.cos E)) *
      ((1 - e * Real.cos Es) + e * (E - Es)) ≤
      e * (E - Es) ^ 2 * ((1 - e * Real.cos Es) + e * (Real.cos Es - Real.cos E)) := by
    nlinarith [mul_nonneg (mul_nonneg (mul_nonneg he0 hd0) hF0.le)
        (sub_nonneg.mpr hclip),
      mul_nonneg (mul_nonneg (mul_nonneg he0 he0) (mul_nonneg hd0 hc0))
        (sub_nonneg.mpr hclip)]
  calc e * ((Real.sin E - Real.sin Es) - (E - Es) * Real.cos E) *
        ((1 - e * Real.cos Es) + e * (E - Es))
      ≤ e * ((E - Es) * (Real.cos Es - Real.cos E)) *
        ((1 - e * Real.cos Es) + e * (E - Es)) := t1
    _ ≤ e * (E - Es) ^ 2 * ((1 - e * Real.cos Es) + e * (Real.cos Es - Real.cos E)) := t2
    _ = e * (E - Es) ^ 2 * (1 - e * Real.cos E) := by rw [← hdenrw]

/-- The first Newton step when the initial guess lands left of the root:
it overshoots to the right of the root but stays under `π`, and the new
error satisfies `(E₁ - E*)·(1 - e) ≤ e·δ²` with `δ = E* - E₀`. -/
theorem kepler_caseB_step {e M Es : ℝ} (he0 : 0 ≤ e) (he9 : e ≤ 9 / 10)
    (hM0 : 0 ≤ M) (hMpi : M ≤ π) (_hMEs : M ≤ Es) (hEspi : Es ≤ π)
    (hroot : Es - e * Real.sin Es - M = 0)
    (hB : M + e * Real.sin M ≤ Es) :
    Es ≤ newtonNext e M (M + e * Real.sin M) ∧
    newtonNext e M (M + e * Real.sin M) ≤ π ∧
    (newtonNext e M (M + e * Real.sin M) - Es) * (1 - e) ≤
      e * (Es - (M + e * Real.sin M)) ^ 2 := by
  set E0 := M + e * Real.sin M with hE0def
  have hsinM : 0 ≤ Real.sin M := Real.sin_nonneg_of_nonneg_of_le_pi hM0 hMpi
  have hE00 : 0 ≤ E0 := by
    have := mul_nonneg he0 hsinM
    simp only [hE0def]; linarith
  have hE0pi : E0 ≤ π := le_trans hB hEspi
  have hδ0 : 0 ≤ Es - E0 := by linarith
  have hden : (0:ℝ) < 1 - e * Real.cos E0 := by
    have h1 : e * Real.cos E0 ≤ e * 1 := mul_le_mul_of_nonneg_left (Real.cos_le_one E0) he0
    linarith
  obtain ⟨hlow, hup⟩ := sin_chord_bounds hE00 hB hEspi
  have hcos_mono : Real.cos Es ≤ Real.cos E0 := cos_anti_on_Icc hE00 hB hEspi
  have hclip : Real.cos E0 - Real.cos Es ≤ Es - E0 := by
    have h := abs_cos_sub_cos_le E0 Es
    have h2 := (abs_le.mp h).2
    have h3 : |E0 - Es| = Es - E0 := by rw [abs_of_nonpos (by linarith)]; ring
    linarith [h3 ▸ h2]
  have hM' : M = Es - e * Real.sin Es := by linarith
  have hkey : (newtonNext e M E0 - Es) * (1 - e * Real.cos E0) =
      e * ((Real.sin E0 - Real.sin Es) - (E0 - Es) * Real.cos E0) := by
    unfold newtonNext newtonStep
    rw [hM']
    field_simp
    ring
  have hη0 : 0 ≤ (Real.sin E0 - Real.sin Es) - (E0 - Es) * Real.cos E0 := by
    nlinarith [hup]
  have hηc : (Real.sin E0 - Real.sin Es) - (E0 - Es) * Real.cos E0 ≤
      (Es - E0) * (Real.cos E0 - Real.cos Es) := by nlinarith [hlow]
  have hX : newtonNext e M E0 - Es =
      e * ((Real.sin E0 - Real.sin Es) - (E0 - Es) * Real.cos E0) /
        (1 - e * Real.cos E0) := by
    rw [eq_div_iff hden.ne']
    exact hkey
  have ha : Es ≤ newtonNext e M E0 := by
    have h1 : 0 ≤ e * ((Real.sin E0 - Real.sin Es) - (E0 - Es) * Real.cos E0) /
        (1 - e * Real.cos E0) := div_nonneg (mul_nonneg he0 hη0) hden.le
    linarith [hX ▸ h1]
  have hb : newtonNext e M E0 ≤ π := by
    have hfE0 : E0 - e * Real.sin E0 - M = e * (Real.sin M - Real.sin E0) := by
      simp only [hE0def]; ring
    have hstep : newtonStep e M E0 =
        e * (Real.sin M - Real.sin E0) / (1 - e * Real.cos E0) := by
      unfold newtonStep
      rw [hfE0]
    have hneg : -(e * (Real.sin M - Real.sin E0)) ≤ e * Real.sin E0 := by
      have := mul_nonneg he0 hsinM
      nlinarith
    have hover := kepler_overshoot_bound hE00 hE0pi he0 he9
    have hstepge : -newtonStep e M E0 ≤ π - E0 := by
      rw [hstep, ← neg_div, div_le_iff₀ hden]
      calc -(e * (Real.sin M - Real.sin E0)) ≤ e * Real.sin E0 := hneg
        _ ≤ (π - E0) * (1 - e * Real.cos E0) := hover
    unfold newtonNext
    linarith
  refine ⟨ha, hb, ?_⟩
  have hc0 : 0 ≤ Real.cos E0 - Real.cos Es := by linarith
  have hη2 : (Real.sin E0 - Real.sin Es) - (E0 - Es) * Real.cos E0 ≤
      (Es - E0) ^ 2 := by
    nlinarith [hηc, mul_le_mul_of_nonneg_left hclip hδ0]
  have h1e : 1 - e ≤ 1 - e * Real.cos E0 := by
    have h1 : e * Real.cos E0 ≤ e * 1 := mul_le_mul_of_nonneg_left (Real.cos_le_one E0) he0
    linarith
  have hXpos : 0 ≤ newtonNext e M E0 - Es := by linarith
  calc (newtonNext e M E0 - Es) * (1 - e)
      ≤ (newtonNext e M E0 - Es) * (1 - e * Real.cos E0) :=
        mul_le_mul_of_nonneg_left h1e hXpos
    _ = e * ((Real.sin E0 - Real.sin Es) - (E0 - Es) * Real.cos E0) := hkey
    _ ≤ e * (Es - E0) ^ 2 := mul_le_mul_of_nonneg_left hη2 he0

/-- Start bound, monotone case: if `0 ≤ d ≤ e²·sin E*` then
`e·d ≤ 15·(1 - e·cos E*)`, via `(1 - e·cos x)² ≥ (1 - e²)·sin² x`. -/
theorem kepler_caseA_start {e Es d : ℝ} (he0 : 0 ≤ e) (he9 : e ≤ 9 / 10)
    (hd0 : 0 ≤ d) (hdle : d ≤ e ^ 2 * Real.sin Es) :
    e * d ≤ kepV 0 * (1 - e * Real.cos Es) := by
  rw [kepV_eval_0]
  have hF0 : (0:ℝ) < 1 - e * Real.cos Es := by
    have h1 : e * Real.cos Es ≤ e * 1 := mul_le_mul_of_nonneg_left (Real.cos_le_one Es) he0
    linarith
  rcases le_or_lt (Real.sin Es) 0 with hs | hs
  · have hzero : e ^ 2 * Real.sin Es ≤ 0 :=
      mul_nonpos_of_nonneg_of_nonpos (sq_nonneg e) hs
    have hd00 : d = 0 := le_antisymm (hdle.trans hzero) hd0
    rw [hd00]
    nlinarith
  · have hpy := Real.sin_sq_add_cos_sq Es
    have he2 : e ^ 2 ≤ 81 / 100 := by nlinarith
    have hF2 : (19 / 100) * Real.sin Es ^ 2 ≤ (1 - e * Real.cos Es) ^ 2 := by
      nlinarith [sq_nonneg (Real.cos Es - e),
        mul_nonneg (by linarith : (0:ℝ) ≤ 81 / 100 - e ^ 2) (sq_nonneg (Real.sin Es))]
    have hF43 : (43 / 100) * Real.sin Es ≤ 1 - e * Real.cos Es := by
      nlinarith [hF2, hF0, hs]
    have he3 : e ^ 3 ≤ 729 / 1000 := by
      calc e ^ 3 ≤ (9 / 10) ^ 3 := pow_le_pow_left₀ he0 he9 3
        _ = 729 / 1000 := by norm_num
    have h1 : e * d ≤ e * (e ^ 2 * Real.sin Es) := mul_le_mul_of_nonneg_left hdle he0
    have h2 : e * (e ^ 2 * Real.sin Es) = e ^ 3 * Real.sin Es := by ring
    have h3 : e ^ 3 * Real.sin Es ≤ (729 / 1000) * Real.sin Es :=
      mul_le_mul_of_nonneg_right he3 hs.le
    nlinarith [hF43, hs]

set_option maxHeartbeats 1600000 in
/-- Start bound after a case-B first step: if `X·(1 - e) ≤ e·δ²` with
`0 ≤ δ ≤ e²·sin E*`, then `e·X ≤ 15·(1 - e·cos E*)`. -/
theorem kepler_caseB_start {e Es X δ : ℝ} (he0 : 0 ≤ e) (he9 : e ≤ 9 / 10)
    (hEs0 : 0 ≤ Es) (hEspi : Es ≤ π) (hX0 : 0 ≤ X)
    (hq : X * (1 - e) ≤ e * δ ^ 2) (hδ0 : 0 ≤ δ)
    (hδle : δ ≤ e ^ 2 * Real.sin Es) :
    e * X ≤ kepV 0 * (1 - e * Real.cos Es) := by
  rw [kepV_eval_0]
  have hs0 : 0 ≤ Real.sin Es := Real.sin_nonneg_of_nonneg_of_le_pi hEs0 hEspi
  have he1 : (1 : ℝ) / 10 ≤ 1 - e := by linarith
  have hδ2 : δ ^ 2 ≤ e ^ 4 * Real.sin Es ^ 2 := by
    have := pow_le_pow_left₀ hδ0 hδle 2
    calc δ ^ 2 ≤ (e ^ 2 * Real.sin Es) ^ 2 := this
      _ = e ^ 4 * Real.sin Es ^ 2 := by ring
  have hchain : e * X * (1 - e) ≤ e ^ 6 * Real.sin Es ^ 2 := by
    have h1 : e * (X * (1 - e)) ≤ e * (e * δ ^ 2) := mul_le_mul_of_nonneg_left hq he0
    have h2 : e * (e * δ ^ 2) ≤ e * (e * (e ^ 4 * Real.sin Es ^ 2)) := by
      refine mul_le_mul_of_nonneg_left ?_ he0
      exact mul_le_mul_of_nonneg_left hδ2 he0
    nlinarith [h1, h2]
  rcases le_or_lt Es 1 with hE1 | hE1
  · -- region E* ≤ 1
    have hsin_le : Real.sin Es ≤ Es := Real.sin_le hEs0
    have hcosb : Real.cos Es ≤ 1 - (43 / 96) * Es ^ 2 := by
      have hb := Real.cos_bound (x := Es) (by rw [abs_of_nonneg hEs0]; exact hE1)
      have h2 := (abs_le.mp hb).2
      have hsq1 : Es ^ 2 ≤ 1 := by nlinarith
      have h4 : Es ^ 4 ≤ Es ^ 2 := by
        nlinarith [mul_le_mul_of_nonneg_right hsq1 (sq_nonneg Es)]
      rw [abs_of_nonneg hEs0] at h2
      nlinarith [h2]
    have hF : (1 - e) + (43 / 96) * e * Es ^ 2 ≤ 1 - e * Real.cos Es := by
      have := mul_le_mul_of_nonneg_left hcosb he0
      nlinarith [this]
    have he5 : e ^ 5 ≤ (645 / 96) * (1 - e) := by
      have h5 : e ^ 5 ≤ (9 / 10) ^ 5 := pow_le_pow_left₀ he0 he9 5
      nlinarith [h5]
    have hsq : Real.sin Es ^ 2 ≤ Es ^ 2 := by nlinarith [hsin_le, hs0]
    have h6 : e ^ 6 * Real.sin Es ^ 2 ≤ e ^ 6 * Es ^ 2 :=
      mul_le_mul_of_nonneg_left hsq (by positivity)
    have h7 : e ^ 6 * Es ^ 2 ≤ (645 / 96) * (1 - e) * (e * Es ^ 2) := by
      have := mul_le_mul_of_nonneg_right he5 (by positivity : (0:ℝ) ≤ e * Es ^ 2)
      nlinarith [this]
    have h8 : (645 / 96) * (1 - e) * (e * Es ^ 2) ≤
        15 * (1 - e) * (1 - e * Real.cos Es) := by
      have h9 := mul_le_mul_of_nonneg_left hF
        (by linarith : (0:ℝ) ≤ 15 * (1 - e))
      nlinarith [h9, sq_nonneg (1 - e)]
    have hfinal : e * X * (1 - e) ≤ 15 * (1 - e) * (1 - e * Real.cos Es) := by
      linarith [hchain, h6, h7, h8]
    have h1e : (0:ℝ) < 1 - e := by linarith
    have hfinal2 : (e * X) * (1 - e) ≤ (15 * (1 - e * Real.cos Es)) * (1 - e) := by
      linarith [hfinal]
    exact le_of_mul_le_mul_right hfinal2 h1e
  · -- region E* > 1
    have hsin1 : Real.sin Es ≤ 1 := Real.sin_le_one Es
    have hcos1 : Real.cos 1 ≤ 53 / 96 := by
      have hb := Real.cos_bound (x := (1:ℝ)) (by norm_num)
      have h2 := (abs_le.mp hb).2
      norm_num at h2
      linarith
    have hc : Real.cos Es ≤ 53 / 96 :=
      le_trans (cos_anti_on_Icc (by norm_num) hE1.le hEspi) hcos1
    have hF : (483 : ℝ) / 960 ≤ 1 - e * Real.cos Es := by
      rcases le_or_lt (Real.cos Es) 0 with hneg | hpos
      · have : e * Real.cos Es ≤ 0 := mul_nonpos_of_nonneg_of_nonpos he0 hneg
        linarith
      · have : e * Real.cos Es ≤ (9 / 10) * (53 / 96) := by
          have h1 : e * Real.cos Es ≤ (9 / 10) * Real.cos Es :=
            mul_le_mul_of_nonneg_right he9 hpos.le
          have h2 : (9 / 10) * Real.cos Es ≤ (9 / 10) * (53 / 96) := by linarith
          linarith
        linarith
    have hs2 : Real.sin Es ^ 2 ≤ 1 := by nlinarith [hsin1, hs0]
    have h6 : e ^ 6 ≤ (531441 : ℝ) / 1000000 := by
      have := pow_le_pow_left₀ he0 he9 6
      nlinarith [this]
    have hchain2 : e * X * (1 / 10) ≤ (531441 : ℝ) / 1000000 := by
      have hEX0 : 0 ≤ e * X := mul_nonneg he0 hX0
      have h1 : e * X * (1 / 10) ≤ e * X * (1 - e) := by nlinarith [hEX0]
      have h2 : e ^ 6 * Real.sin Es ^ 2 ≤ e ^ 6 := by nlinarith [hs2, pow_nonneg he0 6]
      linarith [hchain, h2, h6]
    linarith [hchain2, hF]

set_option maxHeartbeats 1600000 in
/-- Error propagation along the monotone phase: every iterate from a
start `B ∈ [E*, π]` with `e·(B - E*) ≤ v₀·F` stays in `[E*, π]` and obeys
the two majorant tables. -/
theorem kepler_monophase {e M Es B : ℝ} (he0 : 0 ≤ e) (he9 : e ≤ 9 / 10)
    (hEs0 : 0 ≤ Es) (hroot : Es - e * Real.sin Es - M = 0)
    (hB1 : Es ≤ B) (hB2 : B ≤ π)
    (hu0 : e * (B - Es) ≤ kepV 0 * (1 - e * Real.cos Es)) :
    ∀ k, Es ≤ (newtonNext e M)^[k] B ∧ (newtonNext e M)^[k] B ≤ π ∧
      (newtonNext e M)^[k] B - Es ≤ kepD k ∧
      e * ((newtonNext e M)^[k] B - Es) ≤ kepV k * (1 - e * Real.cos Es) := by
  have hF0 : (0:ℝ) < 1 - e * Real.cos Es := by
    have h1 : e * Real.cos Es ≤ e * 1 := mul_le_mul_of_nonneg_left (Real.cos_le_one Es) he0
    linarith
  intro k
  induction k with
  | zero =>
    refine ⟨hB1, hB2, ?_, hu0⟩
    rw [Function.iterate_zero, id_eq, kepD_eval_0]
    have hpi : π < 3.15 := Real.pi_lt_d2
    linarith
  | succ k ih =>
    obtain ⟨h1, h2, h3, h4⟩ := ih
    obtain ⟨hv0, hvmono, hvsq, hdT0, hdstep⟩ := kepTable_facts k
    set Ek := (newtonNext e M)^[k] B with hEk
    have hiter : (newtonNext e M)^[k + 1] B = newtonNext e M Ek :=
      Function.iterate_succ_apply' (newtonNext e M) k B
    obtain ⟨hs1, hs2, hs3⟩ := kepler_mono_step he0 he9 hEs0 hroot h1 h2
    rw [hiter]
    set F := 1 - e * Real.cos Es with hFdef
    set d := Ek - Es with hddef
    set X := newtonNext e M Ek - Es with hXdef
    set W := e * d with hWdef
    have hd0' : 0 ≤ d := by simp only [hddef]; linarith
    have hX0 : 0 ≤ X := by simp only [hXdef]; linarith
    have hXd : X ≤ d := by simp only [hXdef, hddef]; linarith
    have hW0 : 0 ≤ W := mul_nonneg he0 hd0'
    have hWv : W ≤ kepV k * F := h4
    have hFW0 : 0 < F + W := by linarith
    have hq : X * (F + W) ≤ d * W := by
      have : e * d ^ 2 = d * W := by simp only [hWdef]; ring
      calc X * (F + W) ≤ e * d ^ 2 := hs3
        _ = d * W := this
    -- error-table step: X ≤ kepD (k+1)
    have hXv : X * (1 + kepV k) ≤ d * kepV k := by
      have hq1 : X * (F + W) * (1 + kepV k) ≤ d * W * (1 + kepV k) :=
        mul_le_mul_of_nonneg_right hq (by linarith)
      have hdW : d * W ≤ d * (kepV k * F) := mul_le_mul_of_nonneg_left hWv hd0'
      have hq2 : d * W * (1 + kepV k) ≤ d * kepV k * (F + W) := by nlinarith [hdW]
      have hq3 : X * (1 + kepV k) * (F + W) ≤ d * kepV k * (F + W) := by
        nlinarith [hq1, hq2]
      exact le_of_mul_le_mul_right hq3 hFW0
    have hg3 : X ≤ kepD (k + 1) := by
      have hA : X * (1 + kepV k) ≤ kepD k * kepV k := by
        have : d * kepV k ≤ kepD k * kepV k :=
          mul_le_mul_of_nonneg_right h3 hv0.le
        linarith [hXv]
      have hB' : X * (1 + kepV k) ≤ kepD (k + 1) * (1 + kepV k) := hA.trans hdstep
      exact le_of_mul_le_mul_right hB' (by linarith)
    -- u-table step: e·X ≤ kepV (k+1)·F
    have hg4 : e * X ≤ kepV (k + 1) * F := by
      have heX : e * X * (F + W) ≤ W ^ 2 := by
        have h5 : e * (X * (F + W)) ≤ e * (d * W) := mul_le_mul_of_nonneg_left hq he0
        have h6 : e * (d * W) = W ^ 2 := by simp only [hWdef]; ring
        nlinarith [h5]
      have hW2 : W ^ 2 ≤ W * (kepV k * F) := by
        nlinarith [mul_le_mul_of_nonneg_left hWv hW0]
      have hcert : (kepV k - kepV (k + 1)) * kepV k ≤ kepV (k + 1) := by nlinarith [hvsq]
      have ha0 : 0 ≤ kepV k - kepV (k + 1) := by linarith
      have haW : (kepV k - kepV (k + 1)) * W ≤ (kepV k - kepV (k + 1)) * (kepV k * F) :=
        mul_le_mul_of_nonneg_left hWv ha0
      have hvW : kepV k * W ≤ kepV (k + 1) * F + kepV (k + 1) * W := by
        have h7 : (kepV k - kepV (k + 1)) * (kepV k * F) ≤ kepV (k + 1) * F := by
          nlinarith [hcert, hF0]
        linarith [haW]
      have hWvF : W * (kepV k * F) ≤ kepV (k + 1) * F * (F + W) := by
        have := mul_le_mul_of_nonneg_right hvW hF0.le
        nlinarith [this]
      have hfin : e * X * (F + W) ≤ kepV (k + 1) * F * (F + W) := by
        linarith [heX, hW2, hWvF]
      exact le_of_mul_le_mul_right hfin hFW0
    exact ⟨hs1, le_trans hs2 h2, hg3, hg4⟩

/-- If some iterate within the fuel range passes the tolerance test, the
loop returns the Newton update of the first iterate that passes it. -/
theorem keplerAux_run (ecc M tol : ℝ) :
    ∀ (n : ℕ) (E : ℝ),
      (∃ j, j < n ∧ |newtonStep ecc M ((newtonNext ecc M)^[j] E)| < tol) →
      ∃ m, |newtonStep ecc M ((newtonNext ecc M)^[m] E)| < tol ∧
        keplerAux ecc M tol n E = newtonNext ecc M ((newtonNext ecc M)^[m] E) := by
  intro n
  induction n with
  | zero =>
    rintro E ⟨j, hj, _⟩
    exact absurd hj (Nat.not_lt_zero j)
  | succ n ih =>
    rintro E ⟨j, hj, htrig⟩
    by_cases h : |newtonStep ecc M E| < tol
    · refine ⟨0, by simpa using h, ?_⟩
      simp only [keplerAux, if_pos h, Function.iterate_zero, id_eq]
    · have hj0 : j ≠ 0 := by
        intro h0
        rw [h0] at htrig
        simp only [Function.iterate_zero, id_eq] at htrig
        exact h htrig
      obtain ⟨j', rfl⟩ := Nat.exists_eq_succ_of_ne_zero hj0
      have hshift : (newtonNext ecc M)^[j' + 1] E =
          (newtonNext ecc M)^[j'] (newtonNext ecc M E) :=
        Function.iterate_succ_apply (newtonNext ecc M) j' E
      obtain ⟨m, hm1, hm2⟩ := ih (newtonNext ecc M E)
        ⟨j', by omega, by rw [← hshift]; exact htrig⟩
      refine ⟨m + 1, ?_, ?_⟩
      · rw [Function.iterate_succ_apply]
        exact hm1
      · rw [Function.iterate_succ_apply]
        simp only [keplerAux, if_neg h]
        exact hm2

/-- Residual of an accepted Newton update: if the step that produced it
was below `tol` in magnitude, the returned `E` satisfies the Kepler
equation to within `(3/4)·e·tol²`. -/
theorem kepler_residual {ecc M E tol : ℝ} (he0 : 0 ≤ ecc) (he9 : ecc ≤ 9 / 10)
    (h : |newtonStep ecc M E| < tol) :
    |newtonNext ecc M E - ecc * Real.sin (newtonNext ecc M E) - M| ≤
      3 / 4 * ecc * tol ^ 2 := by
  have hden : (0:ℝ) < 1 - ecc * Real.cos E := by
    have h1 : ecc * Real.cos E ≤ ecc * 1 := mul_le_mul_of_nonneg_left (Real.cos_le_one E) he0
    linarith
  set d := newtonStep ecc M E with hddef
  have hd : d * (1 - ecc * Real.cos E) = E - ecc * Real.sin E - M := by
    simp only [hddef, newtonStep]
    field_simp
  have hnext : newtonNext ecc M E = E - d := rfl
  have hkey : newtonNext ecc M E - ecc * Real.sin (newtonNext ecc M E) - M =
      -(ecc * (Real.sin (E - d) - Real.sin E + d * Real.cos E)) := by
    rw [hnext]
    linear_combination -hd
  rw [hkey, abs_neg, abs_mul, abs_of_nonneg he0]
  have hφ := newton_residual_aux E d
  have htol0 : 0 < tol := lt_of_le_of_lt (abs_nonneg d) h
  have hd2 : d ^ 2 ≤ tol ^ 2 := by
    have h1 : |d| ^ 2 ≤ tol ^ 2 := pow_le_pow_left₀ (abs_nonneg d) h.le 2
    rwa [sq_abs] at h1
  calc ecc * |Real.sin (E - d) - Real.sin E + d * Real.cos E|
      ≤ ecc * (3 / 4 * d ^ 2) := mul_le_mul_of_nonneg_left hφ he0
    _ ≤ ecc * (3 / 4 * tol ^ 2) := by
        refine mul_le_mul_of_nonneg_left ?_ he0
        linarith
    _ = 3 / 4 * ecc * tol ^ 2 := by ring

set_option maxHeartbeats 1600000 in
/-- Convergence of the Newton loop for `M ∈ [0, π]`, `e ∈ [0, 9/10]`:
the value returned with tolerance `1e-6` and 50 iterations satisfies the
Kepler equation to within `1e-5`. -/
theorem kepler_converges_upper {e M : ℝ} (he0 : 0 ≤ e) (he9 : e ≤ 9 / 10)
    (hM0 : 0 ≤ M) (hMpi : M ≤ π) :
    |keplerAux e M 1e-6 50 (M + e * Real.sin M) -
      e * Real.sin (keplerAux e M 1e-6 50 (M + e * Real.sin M)) - M| < 1e-5 := by
  obtain ⟨Es, hMEs, hEspi, hroot⟩ := kepler_root_exists he0 hM0 hMpi
  have hEs0 : 0 ≤ Es := le_trans hM0 hMEs
  set E0 := M + e * Real.sin M with hE0def
  have hsinM : 0 ≤ Real.sin M := Real.sin_nonneg_of_nonneg_of_le_pi hM0 hMpi
  have hE0pi : E0 ≤ π := by
    have h1 : Real.sin M ≤ π - M := by
      rw [← Real.sin_pi_sub]
      exact Real.sin_le (by linarith)
    have h2 : e * Real.sin M ≤ e * (π - M) := mul_le_mul_of_nonneg_left h1 he0
    have h3 : e * (π - M) ≤ π - M := by nlinarith
    simp only [hE0def]
    linarith
  have hdist := kepler_E0_dist he0 hMEs hroot
  have htrig : ∃ j, j < 50 ∧ |newtonStep e M ((newtonNext e M)^[j] E0)| < 1e-6 := by
    rcases le_or_lt Es E0 with hcase | hcase
    · -- case A: the initial guess is at or right of the root
      have hd0 : 0 ≤ E0 - Es := by linarith
      have hdle : E0 - Es ≤ e ^ 2 * Real.sin Es := (abs_le.mp hdist).2
      have hu0 := kepler_caseA_start he0 he9 hd0 hdle
      obtain ⟨h1, h2, h3, _⟩ := kepler_monophase he0 he9 hEs0 hroot hcase hE0pi hu0 22
      obtain ⟨hs1, hs2, _⟩ := kepler_mono_step he0 he9 hEs0 hroot h1 h2
      refine ⟨22, by norm_num, ?_⟩
      have hstepval : newtonStep e M ((newtonNext e M)^[22] E0) =
          (newtonNext e M)^[22] E0 - newtonNext e M ((newtonNext e M)^[22] E0) := by
        simp only [newtonNext]
        ring
      rw [hstepval, abs_of_nonneg (by linarith)]
      rw [kepD_eval_22] at h3
      linarith
    · -- case B: the initial guess is left of the root; one overshoot step
      have hδ0 : 0 ≤ Es - E0 := by linarith
      have hdle : Es - E0 ≤ e ^ 2 * Real.sin Es := by
        have := (abs_le.mp hdist).1
        linarith
      obtain ⟨hb1, hb2, hb3⟩ :=
        kepler_caseB_step he0 he9 hM0 hMpi hMEs hEspi hroot hcase.le
      have hX0 : 0 ≤ newtonNext e M E0 - Es := by linarith
      have hu0 := kepler_caseB_start he0 he9 hEs0 hEspi hX0 hb3 hδ0 hdle
      obtain ⟨h1, h2, h3, _⟩ := kepler_monophase he0 he9 hEs0 hroot hb1 hb2 hu0 22
      obtain ⟨hs1, hs2, _⟩ := kepler_mono_step he0 he9 hEs0 hroot h1 h2
      refine ⟨23, by norm_num, ?_⟩
      have hshift : (newtonNext e M)^[23] E0 =
          (newtonNext e M)^[22] (newtonNext e M E0) :=
        Function.iterate_succ_apply (newtonNext e M) 22 E0
      rw [hshift]
      have hstepval : newtonStep e M ((newtonNext e M)^[22] (newtonNext e M E0)) =
          (newtonNext e M)^[22] (newtonNext e M E0) -
            newtonNext e M ((newtonNext e M)^[22] (newtonNext e M E0)) := by
        simp only [newtonNext]
        ring
      rw [hstepval, abs_of_nonneg (by linarith)]
      rw [kepD_eval_22] at h3
      linarith
  obtain ⟨m, hm, hrun⟩ := keplerAux_run e M 1e-6 50 E0 htrig
  rw [hrun]
  have hres := kepler_residual he0 he9 hm
  have hfin : (3:ℝ) / 4 * e * (1e-6) ^ 2 < 1e-5 := by
    have : (3:ℝ) / 4 * e * (1e-6) ^ 2 ≤ 3 / 4 * (9 / 10) * (1e-6) ^ 2 := by nlinarith
    nlinarith [this]
  linarith [hres, hfin]

/-- The Newton loop commutes with the reflection `M ↦ 2π - M`,
`E ↦ 2π - E`. -/
theorem keplerAux_mirror (ecc M tol : ℝ) :
    ∀ (n : ℕ) (E : ℝ),
      keplerAux ecc (2 * π - M) tol n (2 * π - E) =
        2 * π - keplerAux ecc M tol n E := by
  have hstep : ∀ E : ℝ, newtonStep ecc (2 * π - M) (2 * π - E) =
      -newtonStep ecc M E := by
    intro E
    unfold newtonStep
    rw [Real.sin_two_pi_sub, Real.cos_two_pi_sub]
    rw [show 2 * π - E - ecc * -Real.sin E - (2 * π - M) =
      -(E - ecc * Real.sin E - M) by ring]
    rw [neg_div]
  have hnext : ∀ E : ℝ, newtonNext ecc (2 * π - M) (2 * π - E) =
      2 * π - newtonNext ecc M E := by
    intro E
    unfold newtonNext
    rw [hstep]
    ring
  intro n
  induction n with
  | zero =>
    intro E
    simp [keplerAux]
  | succ n ih =>
    intro E
    simp only [keplerAux, hstep, abs_neg, hnext]
    by_cases h : |newtonStep ecc M E| < tol
    · rw [if_pos h, if_pos h]
    · rw [if_neg h, if_neg h, ih]

/-- **C1.** For every eccentricity `e ∈ [0, 0.9]` and mean anomaly
`M ∈ [0, 2π)`, the eccentric anomaly `E` returned by
`solveKeplerEquation(M, e)` (default tolerance `1e-6`, `maxIterations`
50) satisfies `|(E - e·sin E) - M| < 1e-5` — in particular the distance
mod `2π` is below `1e-5`, the round-trip fixed-point property. -/
theorem solveKeplerEquation_roundTrip (e M : ℝ) (he0 : 0 ≤ e) (he9 : e ≤ 0.9)
    (hM0 : 0 ≤ M) (hM2 : M < 2 * π) :
    |solveKeplerEquation M e - e * Real.sin (solveKeplerEquation M e) - M| < 1e-5 := by
  have he9b : e ≤ 9 / 10 := by
    have : (0.9 : ℝ) = 9 / 10 := by norm_num
    linarith [this ▸ he9]
  have h2pi : (0:ℝ) < 2 * π := by positivity
  have hnorm : solveKeplerEquation M e = keplerAux e M 1e-6 50 (M + e * Real.sin M) := by
    unfold solveKeplerEquation
    have hdiv0 : 0 ≤ M / (2 * π) := div_nonneg hM0 h2pi.le
    have hdiv1 : M / (2 * π) < 1 := (div_lt_one h2pi).mpr hM2
    have hfloor : ⌊M / (2 * π)⌋ = 0 :=
      Int.floor_eq_zero_iff.mpr ⟨hdiv0, hdiv1⟩
    have hmod : jsMod M (2 * π) = M := by
      unfold jsMod jsTrunc
      rw [if_pos hdiv0, hfloor]
      push_cast
      ring
    rw [hmod]
    simp only [if_neg (not_lt.mpr hM0)]
  rw [hnorm]
  rcases le_or_lt M π with hMpi | hMpi
  · exact kepler_converges_upper he0 he9b hM0 hMpi
  · set Mr := 2 * π - M with hMrdef
    have hMr0 : 0 ≤ Mr := by simp only [hMrdef]; linarith
    have hMrpi : Mr ≤ π := by simp only [hMrdef]; linarith
    have hMeq : M = 2 * π - Mr := by simp only [hMrdef]; ring
    have hE0eq : M + e * Real.sin M = 2 * π - (Mr + e * Real.sin Mr) := by
      rw [hMeq, Real.sin_two_pi_sub]
      ring
    have hmirror : keplerAux e M 1e-6 50 (M + e * Real.sin M) =
        2 * π - keplerAux e Mr 1e-6 50 (Mr + e * Real.sin Mr) := by
      rw [hE0eq, hMeq]
      exact keplerAux_mirror e Mr 1e-6 50 (Mr + e * Real.sin Mr)
    rw [hmirror]
    set rr := keplerAux e Mr 1e-6 50 (Mr + e * Real.sin Mr) with hrrdef
    have hres := kepler_converges_upper he0 he9b hMr0 hMrpi
    rw [← hrrdef] at hres
    have habs : |2 * π - rr - e * Real.sin (2 * π - rr) - M| =
        |rr - e * Real.sin rr - Mr| := by
      rw [Real.sin_two_pi_sub, hMeq]
      rw [show 2 * π - rr - e * -Real.sin rr - (2 * π - Mr) =
        -(rr - e * Real.sin rr - Mr) by ring]
      rw [abs_neg]
    rw [habs]
    exact hres

/-- Witness for C1 at `e = 0`, `M = 0`. -/
theorem solveKeplerEquation_roundTrip_witness :
    |solveKeplerEquation 0 0 - 0 * Real.sin (solveKeplerEquation 0 0) - 0| < 1e-5 :=
  solveKeplerEquation_roundTrip 0 0 (by norm_num) (by norm_num) (by norm_num)
    (by positivity)

/-- **C2.** For every orbital-elements record with eccentricity `0` (and
positive semi-major axis, as the data model requires), the position
returned by `calculateOrbitalPosition` lies at distance exactly
`semiMajorAxis` from the origin, for every time and speed multiplier; in
particular the concrete scenario `a = 100`, `e = 0`, `i = 0`,
`meanAnomalyAtEpoch = 0`, `time = 0` yields exactly `(100, 0, 0)`. -/
theorem circular_orbit_distance_eq_semiMajorAxis :
    (∀ (el : OrbitalElements) (t sm : ℝ), el.eccentricity = 0 →
      0 < el.semiMajorAxis →
      (calculateOrbitalPosition el t sm).norm = el.semiMajorAxis) ∧
    calculateOrbitalPosition ⟨100, 0, 0, 0, none, none⟩ 0 1 = ⟨100, 0, 0⟩ := by
  constructor
  · intro el t sm he ha
    rw [calculateOrbitalPosition_def, applyOrbitalInclination_def]
    rw [he]
    set a := el.semiMajorAxis with hadef
    set θ := eccentricToTrueAnomaly (solveKeplerEquation (el.meanAnomalyAtEpoch + t * sm) 0) 0 +
      el.periapsisArgument with hθ
    set i := el.inclination.getD 0
    set lan := el.longitudeOfAscendingNode.getD 0
    have hD : a * (1 - 0 * 0) / (1 + 0 * Real.cos (eccentricToTrueAnomaly
        (solveKeplerEquation (el.meanAnomalyAtEpoch + t * sm) 0) 0)) = a := by
      norm_num
    rw [hD]
    unfold Vec3.norm
    have hsum : (a * Real.cos θ * Real.cos lan -
          a * Real.sin θ * Real.sin lan * Real.cos i) ^ 2 +
        (a * Real.sin θ * Real.sin i) ^ 2 +
        (a * Real.cos θ * Real.sin lan +
          a * Real.sin θ * Real.cos lan * Real.cos i) ^ 2 = a ^ 2 := by
      have h1 : Real.sin θ ^ 2 + Real.cos θ ^ 2 = 1 := Real.sin_sq_add_cos_sq θ
      have h2 : Real.sin i ^ 2 + Real.cos i ^ 2 = 1 := Real.sin_sq_add_cos_sq i
      have h3 : Real.sin lan ^ 2 + Real.cos lan ^ 2 = 1 := Real.sin_sq_add_cos_sq lan
      linear_combination (a ^ 2 * (Real.cos θ ^ 2 + Real.sin θ ^ 2 * Real.cos i ^ 2)) * h3 +
        (a ^ 2 * Real.sin θ ^ 2) * h2 + a ^ 2 * h1
    rw [hsum]
    exact Real.sqrt_sq ha.le
  · exact calculateOrbitalPosition_circular_axis 100

/-- Witness for C2 at a concrete record and nonzero time. -/
theorem circular_orbit_distance_eq_semiMajorAxis_witness :
    (calculateOrbitalPosition ⟨100, 0, 0, 0, none, none⟩ 7 1).norm = 100 :=
  circular_orbit_distance_eq_semiMajorAxis.1 ⟨100, 0, 0, 0, none, none⟩ 7 1
    rfl (by norm_num)

/-- **C3.** Each frame (while not paused) the moon's final world position
equals the parent planet's current world position plus the moon's locally
computed orbital offset rotated by the planet's axial tilt about the
planet's rotation axis; in particular, with the planet at `(50, 0, 0)`,
axial tilt `0`, and a moon configuration whose local offset is
`(5, 0, 0)`, the composed position is `(55, 0, 0)`. -/
theorem moon_world_position_composition :
    (∀ (delta speed rotSpeed simSpeed tilt : ℝ) (pp : Vec3)
      (el : OrbitalElements) (s : MoonState),
      (moonOnBeforeRender false delta speed rotSpeed simSpeed tilt pp el s).position =
        Vec3.add pp (tiltRotate
          (calculateOrbitalPosition el (s.orbitTime + speed * delta * simSpeed) 1) tilt)) ∧
    (moonOnBeforeRender false 0 1 1 1 0 ⟨50, 0, 0⟩ ⟨5, 0, 0, 0, none, none⟩
        ⟨0, ⟨0, 0, 0⟩, 0⟩).position = ⟨55, 0, 0⟩ := by
  constructor
  · intro delta speed rotSpeed simSpeed tilt pp el s
    simp [moonOnBeforeRender]
  · simp only [moonOnBeforeRender, Bool.false_eq_true, if_false]
    have h0 : (0 : ℝ) + 1 * 0 * 1 = 0 := by norm_num
    simp only [h0, calculateOrbitalPosition_circular_axis]
    simp [tiltRotate, Vec3.add]
    norm_num

/-- Witness for C3: the composition law applied at concrete inputs. -/
theorem moon_world_position_composition_witness :
    (moonOnBeforeRender false 2 3 1 1 0 ⟨50, 0, 0⟩ ⟨5, 0, 0, 0, none, none⟩
        ⟨0, ⟨0, 0, 0⟩, 0⟩).position =
      Vec3.add ⟨50, 0, 0⟩ (tiltRotate
        (calculateOrbitalPosition ⟨5, 0, 0, 0, none, none⟩ (0 + 3 * 2 * 1) 1) 0) :=
  moon_world_position_composition.1 2 3 1 1 0 ⟨50, 0, 0⟩ ⟨5, 0, 0, 0, none, none⟩
    ⟨0, ⟨0, 0, 0⟩, 0⟩

/-- Witness for C10 at concrete inputs. -/
theorem generateEllipsePoints_ignores_meanAnomalyAtEpoch_witness :
    generateEllipsePoints ⟨1, 0, 0, 0, none, none⟩ 4 =
      generateEllipsePoints ⟨1, 0, 0, 1, none, none⟩ 4 ∧
    generateEllipsePointsPlanar ⟨1, 0, 0, 0, none, none⟩ 4 =
      generateEllipsePointsPlanar ⟨1, 0, 0, 1, none, none⟩ 4 :=
  generateEllipsePoints_ignores_meanAnomalyAtEpoch
    ⟨1, 0, 0, 0, none, none⟩ ⟨1, 0, 0, 1, none, none⟩ 4
    rfl rfl rfl rfl rfl (by norm_num)
